import Mathlib

/-!
Verification development for the slideflow training/evaluation core
(`slideflow/model.py`): hyperparameter validation and serialization
(`HyperParameters`), the batch-interval early-stopping monitor and the
epoch-end checkpointing behaviour of `_PredictionAndEvaluationCallback`,
and the slide-manifest writer `Model._save_manifest`.

Embedding conventions: Python ints are `Int` (batch counters are `ℕ`),
Python floats are `ℚ`, Python strings are `String`.  Fallible
construction returns `Except`.  Side effects (saving checkpoints,
copying sidecar files, log messages) are reified as action/log values
returned next to the new state.
-/

namespace Slideflow

/-- Balancing-mode constant (model.py line 31). -/
def BALANCE_BY_CATEGORY : String := "BALANCE_BY_CATEGORY"

/-- Balancing-mode constant (model.py line 32). -/
def BALANCE_BY_PATIENT : String := "BALANCE_BY_PATIENT"

/-- Balancing-mode constant (model.py line 33). -/
def NO_BALANCE : String := "NO_BALANCE"

/-- The linear-loss set `HyperParameters._LinearLoss` (lines 69-76).  Note that
`negative_log_likelihood` is a member. -/
def _LinearLoss : List String :=
  ["mean_squared_error", "mean_absolute_error", "mean_absolute_percentage_error",
   "mean_squared_logarithmic_error", "squared_hinge", "hinge", "logcosh",
   "negative_log_likelihood"]

/-- The supported-loss set `HyperParameters._AllLoss` (lines 78-94).  The source
omits the comma after the string for hinge on line 83, so Python implicit string
concatenation produces the single sixth entry below. -/
def _AllLoss : List String :=
  ["mean_squared_error", "mean_absolute_error", "mean_absolute_percentage_error",
   "mean_squared_logarithmic_error", "squared_hinge", "hingecategorical_hinge",
   "logcosh", "huber_loss", "categorical_crossentropy",
   "sparse_categorical_crossentropy", "binary_crossentropy",
   "kullback_leibler_divergence", "poisson", "cosine_proximity",
   "is_categorical_crossentropy", "negative_log_likelihood"]

/-- Keys of `HyperParameters._OptDict` (lines 40-48). -/
def _OptDictKeys : List String :=
  ["Adam", "SGD", "RMSprop", "Adagrad", "Adadelta", "Adamax", "Nadam"]

/-- Keys of `HyperParameters._ModelDict` (lines 49-68). -/
def _ModelDictKeys : List String :=
  ["Xception", "VGG16", "VGG19", "ResNet50", "ResNet101", "ResNet152",
   "ResNet50V2", "ResNet101V2", "ResNet152V2", "InceptionV3", "NASNetLarge",
   "InceptionResNetV2", "MobileNet", "MobileNetV2"]

/-- `HyperParameters.model_type` (lines 262-269), a pure function of the stored
loss id: "cph" for the survival loss, "linear" for the remaining members of the
linear set, "categorical" otherwise. -/
def model_type (loss : String) : String :=
  if loss = "negative_log_likelihood" then "cph"
  else if loss ∈ _LinearLoss then "linear"
  else "categorical"

/-- The `finetune_epochs` constructor argument may be a bare int or a list of
ints (assert on line 147). -/
inductive IntOrList where
  | int (i : Int)
  | list (l : List Int)
deriving DecidableEq

/-- Arguments of `HyperParameters.__init__` with their defaults
(lines 96-102). -/
structure HPArgs where
  tile_px : Int := 299
  tile_um : Int := 302
  finetune_epochs : IntOrList := .int 10
  toplayer_epochs : Int := 0
  model : String := "Xception"
  pooling : String := "max"
  loss : String := "sparse_categorical_crossentropy"
  learning_rate : ℚ := 1 / 10000
  learning_rate_decay : ℚ := 0
  learning_rate_decay_steps : Int := 100000
  batch_size : Int := 16
  hidden_layers : Int := 1
  hidden_layer_width : Int := 500
  optimizer : String := "Adam"
  early_stop : Bool := false
  early_stop_patience : Int := 0
  early_stop_method : String := "loss"
  balanced_training : String := BALANCE_BY_CATEGORY
  balanced_validation : String := NO_BALANCE
  trainable_layers : Int := 0
  L2_weight : ℚ := 0
  dropout : ℚ := 0
  augment : Bool := true
  drop_images : Bool := false
deriving DecidableEq

/-- The stored hyperparameter fields, as assigned on lines 174-197. -/
structure HyperParameters where
  tile_px : Int
  tile_um : Int
  toplayer_epochs : Int
  finetune_epochs : List Int
  model : String
  pooling : Option String
  loss : String
  learning_rate : ℚ
  learning_rate_decay : ℚ
  learning_rate_decay_steps : Int
  batch_size : Int
  optimizer : String
  early_stop : Bool
  early_stop_method : String
  early_stop_patience : Int
  hidden_layers : Int
  balanced_training : String
  balanced_validation : String
  augment : Bool
  hidden_layer_width : Int
  trainable_layers : Int
  L2_weight : ℚ
  dropout : ℚ
  drop_images : Bool
deriving DecidableEq

/-- Field assignment of `HyperParameters.__init__` (lines 174-197): a bare-int
`finetune_epochs` is wrapped into a singleton list, pooling "none" is stored as
the absent value, and `L2_weight` passes through `float` (the identity on `ℚ`
here). -/
def mkHP (a : HPArgs) : HyperParameters where
  tile_px := a.tile_px
  tile_um := a.tile_um
  toplayer_epochs := a.toplayer_epochs
  finetune_epochs := match a.finetune_epochs with
    | .int i => [i]
    | .list l => l
  model := a.model
  pooling := if a.pooling ≠ "none" then some a.pooling else none
  loss := a.loss
  learning_rate := a.learning_rate
  learning_rate_decay := a.learning_rate_decay
  learning_rate_decay_steps := a.learning_rate_decay_steps
  batch_size := a.batch_size
  optimizer := a.optimizer
  early_stop := a.early_stop
  early_stop_method := a.early_stop_method
  early_stop_patience := a.early_stop_patience
  hidden_layers := a.hidden_layers
  balanced_training := a.balanced_training
  balanced_validation := a.balanced_validation
  augment := a.augment
  hidden_layer_width := a.hidden_layer_width
  trainable_layers := a.trainable_layers
  L2_weight := a.L2_weight
  dropout := a.dropout
  drop_images := a.drop_images

/-- Construction failures of `HyperParameters`: a Python `assert` failure
(AssertionError, lines 143-172) or the `HyperParameterError` raised in
`validate` (line 231) — the latter is the spec's ConfigurationError. -/
inductive InitError where
  | assertFail (cond : String)
  | hpError (msg : String)
deriving DecidableEq

/-- The combination rejected by `HyperParameters.validate` (lines 229-230):
category-level balancing of training or validation data together with a
non-categorical model type. -/
abbrev badBalanceCombo (loss bt bv : String) : Prop :=
  model_type loss ≠ "categorical" ∧ (bt = BALANCE_BY_CATEGORY ∨ bv = BALANCE_BY_CATEGORY)

/-- `HyperParameters.validate` (lines 227-232): raise `HyperParameterError` on
the invalid balancing combination, else return True. -/
def validate (hp : HyperParameters) : Except InitError Bool :=
  if badBalanceCombo hp.loss hp.balanced_training hp.balanced_validation then
    .error (.hpError "Cannot combine category-level balancing with this model type")
  else
    .ok true

/-- `HyperParameters.__init__` (lines 96-200).  The `isinstance` asserts are
type-level and hold by construction in this embedding; the value-level asserts
are checked in source order, then the fields are assigned and `validate` runs
(line 200). -/
def initHP (a : HPArgs) : Except InitError HyperParameters :=
  if a.model ∉ _ModelDictKeys then .error (.assertFail "model in ModelDict")
  else if a.pooling ∉ ["max", "avg", "none"] then .error (.assertFail "pooling")
  else if a.loss ∉ _AllLoss then .error (.assertFail "loss in AllLoss")
  else if a.optimizer ∉ _OptDictKeys then .error (.assertFail "optimizer in OptDict")
  else if a.early_stop_method ∉ ["loss", "accuracy"] then
    .error (.assertFail "early_stop_method")
  else if a.balanced_training ∉ [BALANCE_BY_CATEGORY, BALANCE_BY_PATIENT, NO_BALANCE] then
    .error (.assertFail "balanced_training")
  else if ¬ (0 ≤ a.learning_rate_decay ∧ a.learning_rate_decay ≤ 1) then
    .error (.assertFail "learning_rate_decay range")
  else if ¬ (0 ≤ a.L2_weight ∧ a.L2_weight ≤ 1) then
    .error (.assertFail "L2_weight range")
  else if ¬ (0 ≤ a.dropout ∧ a.dropout ≤ 1) then
    .error (.assertFail "dropout range")
  else
    match validate (mkHP a) with
    | .error e => .error e
    | .ok _ => .ok (mkHP a)

/-- A serialized hyperparameter attribute value. -/
inductive HPVal where
  | i (n : Int)
  | q (x : ℚ)
  | s (v : String)
  | os (v : Option String)
  | b (v : Bool)
  | il (v : List Int)
deriving DecidableEq

/-- `HyperParameters.get_dict` (lines 209-213): every public non-method
attribute, in the alphabetical order produced by `dir` (uppercase sorts
first). -/
def get_dict (hp : HyperParameters) : List (String × HPVal) :=
  [("L2_weight", .q hp.L2_weight),
   ("augment", .b hp.augment),
   ("balanced_training", .s hp.balanced_training),
   ("balanced_validation", .s hp.balanced_validation),
   ("batch_size", .i hp.batch_size),
   ("drop_images", .b hp.drop_images),
   ("dropout", .q hp.dropout),
   ("early_stop", .b hp.early_stop),
   ("early_stop_method", .s hp.early_stop_method),
   ("early_stop_patience", .i hp.early_stop_patience),
   ("finetune_epochs", .il hp.finetune_epochs),
   ("hidden_layer_width", .i hp.hidden_layer_width),
   ("hidden_layers", .i hp.hidden_layers),
   ("learning_rate", .q hp.learning_rate),
   ("learning_rate_decay", .q hp.learning_rate_decay),
   ("learning_rate_decay_steps", .i hp.learning_rate_decay_steps),
   ("loss", .s hp.loss),
   ("model", .s hp.model),
   ("optimizer", .s hp.optimizer),
   ("pooling", .os hp.pooling),
   ("tile_px", .i hp.tile_px),
   ("tile_um", .i hp.tile_um),
   ("toplayer_epochs", .i hp.toplayer_epochs),
   ("trainable_layers", .i hp.trainable_layers)]

/-- One `setattr` step of `HyperParameters.load_dict` (lines 215-220): a key
naming a stored field with a value of that field's shape updates it; any other
key is logged as unrecognized and skipped. -/
def setAttr (hp : HyperParameters) (kv : String × HPVal) : HyperParameters :=
  match kv with
  | ("L2_weight", .q x) => { hp with L2_weight := x }
  | ("augment", .b x) => { hp with augment := x }
  | ("balanced_training", .s x) => { hp with balanced_training := x }
  | ("balanced_validation", .s x) => { hp with balanced_validation := x }
  | ("batch_size", .i x) => { hp with batch_size := x }
  | ("drop_images", .b x) => { hp with drop_images := x }
  | ("dropout", .q x) => { hp with dropout := x }
  | ("early_stop", .b x) => { hp with early_stop := x }
  | ("early_stop_method", .s x) => { hp with early_stop_method := x }
  | ("early_stop_patience", .i x) => { hp with early_stop_patience := x }
  | ("finetune_epochs", .il x) => { hp with finetune_epochs := x }
  | ("hidden_layer_width", .i x) => { hp with hidden_layer_width := x }
  | ("hidden_layers", .i x) => { hp with hidden_layers := x }
  | ("learning_rate", .q x) => { hp with learning_rate := x }
  | ("learning_rate_decay", .q x) => { hp with learning_rate_decay := x }
  | ("learning_rate_decay_steps", .i x) => { hp with learning_rate_decay_steps := x }
  | ("loss", .s x) => { hp with loss := x }
  | ("model", .s x) => { hp with model := x }
  | ("optimizer", .s x) => { hp with optimizer := x }
  | ("pooling", .os x) => { hp with pooling := x }
  | ("tile_px", .i x) => { hp with tile_px := x }
  | ("tile_um", .i x) => { hp with tile_um := x }
  | ("toplayer_epochs", .i x) => { hp with toplayer_epochs := x }
  | ("trainable_layers", .i x) => { hp with trainable_layers := x }
  | _ => hp

/-- `HyperParameters.load_dict` (lines 215-220): set each entry in turn. -/
def load_dict (hp : HyperParameters) (d : List (String × HPVal)) : HyperParameters :=
  d.foldl setAttr hp

/-- C3 counterexample: `negative_log_likelihood` is a member of the configured
linear-loss set, yet `model_type` maps it to "cph", not to "linear"; so the
claim's clause that every loss id in the linear set yields "linear" is false at
this loss id. -/
theorem C3_counterexample_nll_not_linear :
    "negative_log_likelihood" ∈ _LinearLoss ∧
    model_type "negative_log_likelihood" = "cph" ∧
    model_type "negative_log_likelihood" ≠ "linear" := by
  refine ⟨by decide, by decide, by decide⟩

/-- C3 (amended): `model_type` is a pure function of the loss id mapping every
member of the linear set other than `negative_log_likelihood` to "linear",
mapping the survival loss `negative_log_likelihood` (itself listed in the
linear set) to the survival type "cph", and mapping every other supported loss
id to "categorical". -/
theorem C3_model_type_amended (l : String) :
    (l ∈ _LinearLoss → l ≠ "negative_log_likelihood" → model_type l = "linear") ∧
    model_type "negative_log_likelihood" = "cph" ∧
    (l ∈ _AllLoss → l ∉ _LinearLoss → model_type l = "categorical") := by
  refine ⟨?_, by decide, ?_⟩
  · intro hmem hne
    unfold model_type
    rw [if_neg hne, if_pos hmem]
  · intro _ hnl
    have hne : l ≠ "negative_log_likelihood" := by
      intro h
      subst h
      exact hnl (by decide)
    unfold model_type
    rw [if_neg hne, if_neg hnl]

/-- C3 amended, witnessed at concrete loss ids from each of the three clauses. -/
theorem C3_model_type_amended_witness :
    model_type "mean_squared_error" = "linear" ∧
    model_type "negative_log_likelihood" = "cph" ∧
    model_type "huber_loss" = "categorical" :=
  ⟨(C3_model_type_amended "mean_squared_error").1 (by decide) (by decide),
   (C3_model_type_amended "huber_loss").2.1,
   (C3_model_type_amended "huber_loss").2.2 (by decide) (by decide)⟩

/-- C4: for constructor arguments passing the type and membership asserts,
construction raises the configuration error (`HyperParameterError`) exactly
when train or validation balancing is category-level and the loss id yields a
non-categorical model type; the `validate` check passes, and construction
succeeds, exactly otherwise. -/
theorem C4_balancing_validation (a : HPArgs)
    (hm : a.model ∈ _ModelDictKeys) (hpo : a.pooling ∈ ["max", "avg", "none"])
    (hl : a.loss ∈ _AllLoss) (ho : a.optimizer ∈ _OptDictKeys)
    (he : a.early_stop_method ∈ ["loss", "accuracy"])
    (hb : a.balanced_training ∈ [BALANCE_BY_CATEGORY, BALANCE_BY_PATIENT, NO_BALANCE])
    (hd : 0 ≤ a.learning_rate_decay ∧ a.learning_rate_decay ≤ 1)
    (hw : 0 ≤ a.L2_weight ∧ a.L2_weight ≤ 1)
    (hdr : 0 ≤ a.dropout ∧ a.dropout ≤ 1) :
    ((∃ m, initHP a = .error (.hpError m)) ↔
        badBalanceCombo a.loss a.balanced_training a.balanced_validation) ∧
    (validate (mkHP a) = .ok true ↔
        ¬ badBalanceCombo a.loss a.balanced_training a.balanced_validation) ∧
    (¬ badBalanceCombo a.loss a.balanced_training a.balanced_validation →
        initHP a = .ok (mkHP a)) := by
  have hinit : initHP a = (match validate (mkHP a) with
      | .error e => .error e
      | .ok _ => .ok (mkHP a)) := by
    unfold initHP
    rw [if_neg (not_not_intro hm), if_neg (not_not_intro hpo), if_neg (not_not_intro hl),
        if_neg (not_not_intro ho), if_neg (not_not_intro he), if_neg (not_not_intro hb),
        if_neg (not_not_intro hd), if_neg (not_not_intro hw), if_neg (not_not_intro hdr)]
  by_cases hc : badBalanceCombo a.loss a.balanced_training a.balanced_validation
  · have hv : validate (mkHP a) =
        .error (.hpError "Cannot combine category-level balancing with this model type") :=
      if_pos hc
    rw [hinit, hv]
    refine ⟨⟨fun _ => hc, fun _ => ⟨_, rfl⟩⟩, ?_, fun hn => absurd hc hn⟩
    simp [hc]
  · have hv : validate (mkHP a) = .ok true := if_neg hc
    rw [hinit, hv]
    refine ⟨⟨?_, fun h => absurd h hc⟩, ?_, fun _ => rfl⟩
    · rintro ⟨m, hm'⟩
      exact absurd hm' (by simp)
    · simp [hc]

/-- Concrete arguments for the C4 witness: a linear loss with the default
category-level training balancing. -/
def c4args : HPArgs := { loss := "mean_squared_error" }

/-- C4 witnessed at `c4args`, where the bad combination holds and construction
raises the configuration error. -/
theorem C4_balancing_validation_witness :
    ((∃ m, initHP c4args = .error (.hpError m)) ↔
        badBalanceCombo c4args.loss c4args.balanced_training c4args.balanced_validation) ∧
    (validate (mkHP c4args) = .ok true ↔
        ¬ badBalanceCombo c4args.loss c4args.balanced_training c4args.balanced_validation) ∧
    (¬ badBalanceCombo c4args.loss c4args.balanced_training c4args.balanced_validation →
        initHP c4args = .ok (mkHP c4args)) :=
  C4_balancing_validation c4args (by decide) (by decide) (by decide) (by decide)
    (by decide) (by decide) (by decide) (by decide) (by decide)

/-- C5: for every hyperparameter set produced by the constructor (canonicalized
fields included), `load_dict` applied to the output of `get_dict` reproduces
every stored field, starting from any prior hyperparameter set. -/
theorem C5_hp_roundtrip (a : HPArgs) (hp : HyperParameters)
    (h : initHP a = .ok hp) (hp0 : HyperParameters) :
    load_dict hp0 (get_dict hp) = hp := by
  clear h a
  cases hp
  rfl

/-- C5 witnessed at the default constructor arguments: the round trip
reproduces the canonicalized default hyperparameter set (bare-int
`finetune_epochs` stored as a list), starting from a differently-valued set. -/
theorem C5_hp_roundtrip_witness :
    load_dict (mkHP { loss := "hingecategorical_hinge", tile_px := 0 })
        (get_dict (mkHP {})) = mkHP {} :=
  C5_hp_roundtrip {} (mkHP {}) rfl (mkHP { loss := "hingecategorical_hinge", tile_px := 0 })

/-- Concrete arguments for the C6 counterexample: non-positive tile width (px
and µm) and a negative learning rate, all other arguments default. -/
def c6args : HPArgs := { tile_px := -1, tile_um := 0, learning_rate := -(1 / 2) }

/-- C6 counterexample: construction accepts non-positive `tile_px`, `tile_um`
and `learning_rate` (no assert checks their sign, lines 143-172), refuting the
claim that construction raises whenever these are not positive. -/
theorem C6_counterexample_nonpositive_accepted :
    c6args.tile_px ≤ 0 ∧ c6args.tile_um ≤ 0 ∧ c6args.learning_rate < 0 ∧
    initHP c6args = .ok (mkHP c6args) := by
  refine ⟨by decide, by decide, by norm_num [c6args], rfl⟩

/-- C6 (amended): construction enforces the membership asserts and the unit
ranges of `learning_rate_decay`, `L2_weight` and `dropout`, raising on any
violation, but performs no positivity check on `tile_px`, `tile_um` or
`learning_rate`: whenever the checked asserts and the balancing validation
pass, construction succeeds regardless of the signs of those three fields. -/
theorem C6_range_checks_amended (a : HPArgs)
    (hm : a.model ∈ _ModelDictKeys) (hpo : a.pooling ∈ ["max", "avg", "none"])
    (hl : a.loss ∈ _AllLoss) (ho : a.optimizer ∈ _OptDictKeys)
    (he : a.early_stop_method ∈ ["loss", "accuracy"])
    (hb : a.balanced_training ∈ [BALANCE_BY_CATEGORY, BALANCE_BY_PATIENT, NO_BALANCE])
    (hd : 0 ≤ a.learning_rate_decay ∧ a.learning_rate_decay ≤ 1) :
    ((0 ≤ a.L2_weight ∧ a.L2_weight ≤ 1) → (0 ≤ a.dropout ∧ a.dropout ≤ 1) →
        ¬ badBalanceCombo a.loss a.balanced_training a.balanced_validation →
        initHP a = .ok (mkHP a)) ∧
    (¬ (0 ≤ a.L2_weight ∧ a.L2_weight ≤ 1) →
        initHP a = .error (.assertFail "L2_weight range")) ∧
    ((0 ≤ a.L2_weight ∧ a.L2_weight ≤ 1) → ¬ (0 ≤ a.dropout ∧ a.dropout ≤ 1) →
        initHP a = .error (.assertFail "dropout range")) := by
  have hinit : initHP a =
      (if ¬ (0 ≤ a.L2_weight ∧ a.L2_weight ≤ 1) then
        Except.error (InitError.assertFail "L2_weight range")
      else if ¬ (0 ≤ a.dropout ∧ a.dropout ≤ 1) then
        Except.error (InitError.assertFail "dropout range")
      else match validate (mkHP a) with
        | .error e => .error e
        | .ok _ => .ok (mkHP a)) := by
    unfold initHP
    rw [if_neg (not_not_intro hm), if_neg (not_not_intro hpo), if_neg (not_not_intro hl),
        if_neg (not_not_intro ho), if_neg (not_not_intro he), if_neg (not_not_intro hb),
        if_neg (not_not_intro hd)]
  refine ⟨?_, ?_, ?_⟩
  · intro hw hdr hc
    rw [hinit, if_neg (not_not_intro hw), if_neg (not_not_intro hdr)]
    have hv : validate (mkHP a) = .ok true := if_neg hc
    rw [hv]
  · intro hw
    rw [hinit, if_pos hw]
  · intro hw hdr
    rw [hinit, if_neg (not_not_intro hw), if_pos hdr]

/-- Concrete arguments for the C6 amended witness: a negative tile width with
all checked asserts passing. -/
def c6wargs : HPArgs := { tile_px := -7 }

/-- C6 amended, witnessed at `c6wargs`: construction succeeds despite the
negative tile width. -/
theorem C6_range_checks_amended_witness :
    ((0 ≤ c6wargs.L2_weight ∧ c6wargs.L2_weight ≤ 1) →
        (0 ≤ c6wargs.dropout ∧ c6wargs.dropout ≤ 1) →
        ¬ badBalanceCombo c6wargs.loss c6wargs.balanced_training c6wargs.balanced_validation →
        initHP c6wargs = .ok (mkHP c6wargs)) ∧
    (¬ (0 ≤ c6wargs.L2_weight ∧ c6wargs.L2_weight ≤ 1) →
        initHP c6wargs = .error (.assertFail "L2_weight range")) ∧
    ((0 ≤ c6wargs.L2_weight ∧ c6wargs.L2_weight ≤ 1) →
        ¬ (0 ≤ c6wargs.dropout ∧ c6wargs.dropout ≤ 1) →
        initHP c6wargs = .error (.assertFail "dropout range")) :=
  C6_range_checks_amended c6wargs (by decide) (by decide) (by decide) (by decide)
    (by decide) (by decide) (by decide)

/-- Slide name extracted from a tfrecord path (lines 709 and 715):
`tfrecord.split('/')[-1][:-10]`, i.e. the last path component with its final
ten characters (the ".tfrecords" suffix) removed. -/
def slideFromTFRecord (path : String) : String :=
  let base := path.toList.foldl (fun acc c => if c = '/' then [] else acc ++ [c]) []
  String.mk (base.take (base.length - 10))

/-- The label lookup built in `Model.__init__` (lines 498-503): a static hash
table from slide id to outcome label whose default value for a missing key is
-1.  The annotation collection is an association list from slide id to
outcome label. -/
def annTable (ann : List (String × Int)) (slide : String) : Int :=
  match ann.lookup slide with
  | some l => l
  | none => -1

/-- Data rows written by `Model._save_manifest` (lines 707-718): one row per
tfrecord whose extracted slide id is among `self.slides`
(`list(annotations.keys())`, line 462); any other tfrecord contributes no row.
The outcome label read off the annotation entry is rendered into the CSV
row. -/
def manifestRows (ann : List (String × Int)) (train_tfrecords val_tfrecords : List String) :
    List (List String) :=
  (train_tfrecords.filterMap fun t =>
    let s := slideFromTFRecord t
    if s ∈ ann.map Prod.fst then some [s, "training", toString (annTable ann s)] else none) ++
  (val_tfrecords.filterMap fun t =>
    let s := slideFromTFRecord t
    if s ∈ ann.map Prod.fst then some [s, "validation", toString (annTable ann s)] else none)

/-- `Model._save_manifest` (lines 700-718): when any tfrecords are given, the
log file holds the header row followed by the data rows; otherwise no file is
written.  The function is total: a tfrecord whose slide has no annotation
entry is skipped, no error is raised. -/
def save_manifest (ann : List (String × Int)) (train_tfrecords val_tfrecords : List String) :
    Option (List (List String)) :=
  if train_tfrecords ≠ [] ∨ val_tfrecords ≠ [] then
    some ([["slide", "dataset", "outcome_label"]] ++ manifestRows ann train_tfrecords val_tfrecords)
  else
    none

/-- A lookup over an association list with no entry for the key is `none`. -/
theorem lookup_eq_none_of_not_mem {ann : List (String × Int)} {s : String}
    (hs : s ∉ ann.map Prod.fst) : ann.lookup s = none := by
  induction ann with
  | nil => rfl
  | cons p rest ih =>
    obtain ⟨k, v⟩ := p
    simp only [List.map_cons, List.mem_cons, not_or] at hs
    have hk : (s == k) = false := beq_eq_false_iff_ne.mpr hs.1
    simpa [List.lookup, hk] using ih hs.2

/-- C9 counterexample: the training shard references slide s2, which has no
annotation entry; `_save_manifest` still returns (header row only, s2 silently
skipped) and the label table yields the default label -1 for s2 — no
`ModelError` is raised on this path. -/
theorem C9_counterexample_missing_entry :
    save_manifest [("s1", 3)] ["data/s2.tfrecords"] [] =
      some [["slide", "dataset", "outcome_label"]] ∧
    annTable [("s1", 3)] "s2" = -1 := by
  refine ⟨by decide, by decide⟩

/-- C9 (amended): a slide referenced by a data shard that has no annotation
entry is silently omitted from the slide manifest (no data row carries its id)
and the label lookup table maps it to the default label -1; the model core in
`model.py` raises no error for such a slide (any enforcement would live in the
interleaving module, outside this file's scope). -/
theorem C9_missing_ann_amended (ann : List (String × Int))
    (train_tfrecords val_tfrecords : List String) (s : String)
    (hs : s ∉ ann.map Prod.fst) :
    ((manifestRows ann train_tfrecords val_tfrecords).all fun row => row.headD "" != s) = true ∧
    annTable ann s = -1 := by
  constructor
  · rw [List.all_eq_true]
    intro row hrow
    rw [bne_iff_ne]
    intro hhead
    rcases List.mem_append.1 hrow with hmem | hmem <;>
    · obtain ⟨t, _, ht⟩ := List.mem_filterMap.1 hmem
      by_cases hin : slideFromTFRecord t ∈ ann.map Prod.fst
      · rw [if_pos hin] at ht
        obtain rfl := Option.some.inj ht
        simp only [List.headD_cons] at hhead
        exact hs (hhead ▸ hin)
      · rw [if_neg hin] at ht
        exact Option.noConfusion ht
  · unfold annTable
    rw [lookup_eq_none_of_not_mem hs]

/-- C9 amended, witnessed at the concrete missing slide s2. -/
theorem C9_missing_ann_amended_witness :
    ((manifestRows [("s1", 3)] ["data/s2.tfrecords"] ["data/s1.tfrecords"]).all
        fun row => row.headD "" != "s2") = true ∧
    annTable [("s1", 3)] "s2" = -1 :=
  C9_missing_ann_amended [("s1", 3)] ["data/s2.tfrecords"] ["data/s1.tfrecords"] "s2" (by decide)

/-- Configuration visible to `_PredictionAndEvaluationCallback`: the relevant
hyperparameters (`self.hp`), the `cb_args` built in `Model.train` (lines
921-935), the cached model type (line 287), and the checkpoint naming inputs
(`self.parent.name`, `self.parent.outdir`). -/
structure CBConfig where
  early_stop : Bool
  early_stop_method : String
  early_stop_patience : Int
  model_type : String
  using_validation : Bool
  validate_on_batch : ℕ
  ema_observations : ℕ
  ema_smoothing : ℚ
  steps_per_epoch : ℕ
  finetune_epochs : List Int
  name : Option String
  outdir : String
deriving DecidableEq

/-- Mutable state of `_PredictionAndEvaluationCallback` (lines 281-288),
together with the Keras `model.stop_training` flag the callback drives and the
epochs recorded into `self.results` by `evaluate_model`. -/
structure CallbackState where
  early_stop : Bool
  last_ema : ℚ
  moving_average : List ℚ
  ema_two_checks_prior : ℚ
  ema_one_check_prior : ℚ
  epoch_count : Int
  stop_training : Bool
  results_epochs : List Int
deriving DecidableEq

/-- Initial callback state (lines 281-288) at a given starting epoch. -/
def initState (starting_epoch : Int) : CallbackState where
  early_stop := false
  last_ema := -1
  moving_average := []
  ema_two_checks_prior := -1
  ema_one_check_prior := -1
  epoch_count := starting_epoch
  stop_training := false
  results_epochs := []

/-- Observable log variants emitted by a batch-interval validation check: the
base message without a smoothing suffix (lines 350 and 354), the message with
the SMA suffix (line 361), with the EMA suffix (line 366), and the early-stop
trigger message (line 378). -/
inductive LogKind where
  | base
  | smaLog (x : ℚ)
  | emaLog (x : ℚ)
  | triggered
deriving DecidableEq

/-- Side effects of `on_epoch_end` (lines 290-312): saving the full model into
a checkpoint directory, copying the two sidecar files into it, the warning
logged when that copy fails, and running `evaluate_model`. -/
inductive EpochAction where
  | save (path : String)
  | copySidecars (path : String)
  | warnCopyFail
  | evalModel
deriving DecidableEq

/-- EMA window update of `on_train_batch_end` (lines 335 and 353-366) for a
check in a mode where the moving average is computed: the monitored value has
been appended; while the window has not exceeded `ema_observations` only the
base message is logged; otherwise the oldest value is popped and either the
simple moving average is seeded (when `last_ema == -1`) or the exponential
update is applied. -/
def emaUpdate (cfg : CBConfig) (s : CallbackState) (v : ℚ) : CallbackState × LogKind :=
  if (s.moving_average ++ [v]).length ≤ cfg.ema_observations then
    ({ s with moving_average := s.moving_average ++ [v] }, .base)
  else if s.last_ema = -1 then
    ({ s with moving_average := (s.moving_average ++ [v]).tail,
              last_ema := (s.moving_average ++ [v]).tail.sum /
                ((s.moving_average ++ [v]).tail.length : ℚ) },
      .smaLog ((s.moving_average ++ [v]).tail.sum / ((s.moving_average ++ [v]).tail.length : ℚ)))
  else
    ({ s with moving_average := (s.moving_average ++ [v]).tail,
              last_ema := v * (cfg.ema_smoothing / (1 + (cfg.ema_observations : ℚ))) +
                s.last_ema * (1 - cfg.ema_smoothing / (1 + (cfg.ema_observations : ℚ))) },
      .emaLog (v * (cfg.ema_smoothing / (1 + (cfg.ema_observations : ℚ))) +
        s.last_ema * (1 - cfg.ema_smoothing / (1 + (cfg.ema_observations : ℚ)))))

/-- The outer guard of the trigger block (lines 370-372): early stopping is
enabled, the EMA is seeded, and the elapsed fractional-epoch count (current
batch over steps per epoch, plus the epoch count) exceeds the patience. -/
abbrev patienceMet (cfg : CBConfig) (s : CallbackState) (batch : ℕ) : Prop :=
  cfg.early_stop = true ∧ s.last_ema ≠ -1 ∧
    (batch : ℚ) / (cfg.steps_per_epoch : ℚ) + (s.epoch_count : ℚ) >
      (cfg.early_stop_patience : ℚ)

/-- The inner trigger condition (lines 374-376): the two-checks-prior snapshot
exists and the current EMA has failed to improve on it (at most equal for the
accuracy method, at least equal for the loss method). -/
abbrev notImproving (cfg : CBConfig) (s : CallbackState) : Prop :=
  s.ema_two_checks_prior ≠ -1 ∧
    ((cfg.early_stop_method = "accuracy" ∧ s.last_ema ≤ s.ema_two_checks_prior) ∨
      (cfg.early_stop_method = "loss" ∧ s.ema_two_checks_prior ≤ s.last_ema))

/-- Early-stop trigger step of `on_train_batch_end` (lines 368-383), applied to
the post-update state: under the outer guard, either fire the trigger or shift
the snapshots (the two-checks-prior snapshot receives the old one-check-prior
value, which then receives the current EMA). -/
def triggerStep (cfg : CBConfig) (s : CallbackState) (batch : ℕ) :
    CallbackState × List LogKind :=
  if patienceMet cfg s batch then
    if notImproving cfg s then
      ({ s with stop_training := true, early_stop := true }, [.triggered])
    else
      ({ s with ema_two_checks_prior := s.ema_one_check_prior,
                ema_one_check_prior := s.last_ema }, [])
  else
    (s, [])

/-- Body of a batch-interval validation check (lines 318-383), given the
monitored value `v` (`early_stop_value`, selected on lines 322-329):
`model.stop_training` is reset (line 323) and the value appended to the window
(line 335); in a mode where the monitored metric is undefined (non-categorical
model with the accuracy method, lines 348-350) only the base message is
logged; otherwise the EMA update and the trigger step run. -/
def onCheck (cfg : CBConfig) (s : CallbackState) (batch : ℕ) (v : ℚ) :
    CallbackState × List LogKind :=
  if cfg.model_type ≠ "categorical" ∧ cfg.early_stop_method = "accuracy" then
    ({ s with stop_training := false, moving_average := s.moving_average ++ [v] }, [.base])
  else
    ((triggerStep cfg (emaUpdate cfg { s with stop_training := false } v).1 batch).1,
      (emaUpdate cfg { s with stop_training := false } v).2 ::
        (triggerStep cfg (emaUpdate cfg { s with stop_training := false } v).1 batch).2)

/-- `on_train_batch_end` (lines 314-383): a validation check runs only when
validation data is in use and the batch index is a positive multiple of the
configured interval. -/
def on_train_batch_end (cfg : CBConfig) (s : CallbackState) (batch : ℕ) (v : ℚ) :
    CallbackState × List LogKind :=
  if cfg.using_validation = true ∧ cfg.validate_on_batch ≠ 0 ∧ 0 < batch ∧
      batch % cfg.validate_on_batch = 0 then
    onCheck cfg s batch v
  else
    (s, [])

/-- `evaluate_model` (lines 388-419) as it affects callback state: the current
epoch's results are appended to `self.results` under the key for that epoch. -/
def evalModel (s : CallbackState) : CallbackState :=
  { s with results_epochs := s.results_epochs ++ [s.epoch_count] }

/-- Model name used for the checkpoint directory (line 294): the parent name
when set and non-empty (Python truthiness), else "trained_model". -/
def modelName (cfg : CBConfig) : String :=
  match cfg.name with
  | some n => if n = "" then "trained_model" else n
  | none => "trained_model"

/-- Checkpoint directory path (line 295). -/
def checkpointPath (cfg : CBConfig) (epoch : Int) : String :=
  cfg.outdir ++ "/" ++ modelName cfg ++ "_epoch" ++ toString epoch

/-- `on_epoch_end` (lines 290-312): the epoch counter advances; at a member of
`finetune_epochs` the model is saved into the checkpoint directory, the
sidecar copy is attempted (a failure, `copyOk = false`, only logs a warning),
and `evaluate_model` runs when validation data exists; otherwise, when the
early-stop flag is set, only `evaluate_model` runs; finally
`model.stop_training` is set to the early-stop flag (line 312). -/
def on_epoch_end (cfg : CBConfig) (copyOk : Bool) (s : CallbackState) :
    CallbackState × List EpochAction :=
  let s1 : CallbackState := { s with epoch_count := s.epoch_count + 1 }
  if s1.epoch_count ∈ cfg.finetune_epochs then
    let path := checkpointPath cfg s1.epoch_count
    if cfg.using_validation = true then
      ({ evalModel s1 with stop_training := s1.early_stop },
        [EpochAction.save path] ++
          (if copyOk then [EpochAction.copySidecars path] else [EpochAction.warnCopyFail]) ++
          [EpochAction.evalModel])
    else
      ({ s1 with stop_training := s1.early_stop },
        [EpochAction.save path] ++
          (if copyOk then [EpochAction.copySidecars path] else [EpochAction.warnCopyFail]))
  else if s1.early_stop = true then
    ({ evalModel s1 with stop_training := s1.early_stop }, [EpochAction.evalModel])
  else
    ({ s1 with stop_training := s1.early_stop }, [])

/-- One epoch of batch-end callbacks inside `Model.fit`: the Keras training
loop stops issuing batches once `model.stop_training` is set. -/
def runChecks (cfg : CBConfig) : CallbackState → List (ℕ × ℚ) →
    CallbackState × List LogKind
  | s, [] => (s, [])
  | s, (b, v) :: rest =>
    if s.stop_training = true then
      (s, [])
    else
      ((runChecks cfg (on_train_batch_end cfg s b v).1 rest).1,
        (on_train_batch_end cfg s b v).2 ++
          (runChecks cfg (on_train_batch_end cfg s b v).1 rest).2)

/-- The Keras fit loop over epochs: each epoch runs its batch-end checks, then
`on_epoch_end` (with the sidecar copy succeeding), and the loop breaks once
`model.stop_training` is set. -/
def runTraining (cfg : CBConfig) : CallbackState → List (List (ℕ × ℚ)) →
    CallbackState × List LogKind × List EpochAction
  | s, [] => (s, [], [])
  | s, ep :: rest =>
    if (on_epoch_end cfg true (runChecks cfg s ep).1).1.stop_training = true then
      ((on_epoch_end cfg true (runChecks cfg s ep).1).1, (runChecks cfg s ep).2,
        (on_epoch_end cfg true (runChecks cfg s ep).1).2)
    else
      ((runTraining cfg (on_epoch_end cfg true (runChecks cfg s ep).1).1 rest).1,
        (runChecks cfg s ep).2 ++
          (runTraining cfg (on_epoch_end cfg true (runChecks cfg s ep).1).1 rest).2.1,
        (on_epoch_end cfg true (runChecks cfg s ep).1).2 ++
          (runTraining cfg (on_epoch_end cfg true (runChecks cfg s ep).1).1 rest).2.2)

/-- Paths of checkpoint directories created by a list of epoch-end actions. -/
def savedPaths (acts : List EpochAction) : List String :=
  acts.filterMap fun a => match a with
    | .save p => some p
    | _ => none

/-- Recognizer for the SMA-seeding log message. -/
def isSMA : LogKind → Bool
  | .smaLog _ => true
  | _ => false

/-- Recognizer for the early-stop trigger log message. -/
def isTriggered : LogKind → Bool
  | .triggered => true
  | _ => false

/-- Recognizer for the base log message. -/
def isBase : LogKind → Bool
  | .base => true
  | _ => false

/-- Concrete configuration for the C7 counterexample: the only checkpoint
epoch is 5. -/
def c7cfg : CBConfig where
  early_stop := true
  early_stop_method := "loss"
  early_stop_patience := 0
  model_type := "categorical"
  using_validation := true
  validate_on_batch := 8
  ema_observations := 4
  ema_smoothing := 2
  steps_per_epoch := 10
  finetune_epochs := [5]
  name := none
  outdir := "out"

/-- Concrete state for the C7 counterexample: the early-stop flag was set
during epoch 1 (so the epoch about to be recorded, 1, is not a member of
`finetune_epochs`). -/
def c7state : CallbackState :=
  { initState 0 with early_stop := true, stop_training := true }

/-- C7 counterexample: at an early-stop trigger whose epoch is not a member of
`finetune_epochs`, `on_epoch_end` only runs the evaluation — no model save
action is emitted, so no checkpoint directory is created, refuting the claim
that weights are persisted upon an early-stop trigger. -/
theorem C7_counterexample_early_stop_no_save :
    c7state.early_stop = true ∧ ((0 : Int) + 1) ∉ c7cfg.finetune_epochs ∧
    (on_epoch_end c7cfg true c7state).2 = [EpochAction.evalModel] ∧
    savedPaths (on_epoch_end c7cfg true c7state).2 = [] := by
  refine ⟨rfl, by decide, by decide, by decide⟩

/-- C7 (amended): the model is saved into the fresh checkpoint directory named
by model name and epoch exactly at the epochs in `finetune_epochs` (with the
sidecar copy attempted, and — when validation data exists — the full metric
evaluation run and the epoch's results appended); upon an early-stop trigger
at a non-member epoch only the evaluation runs and the results are appended,
with no checkpoint directory created; at all other epochs nothing happens. -/
theorem C7_checkpoint_amended (cfg : CBConfig) (copyOk : Bool) (s : CallbackState) :
    (savedPaths (on_epoch_end cfg copyOk s).2 ≠ [] ↔
        (s.epoch_count + 1) ∈ cfg.finetune_epochs) ∧
    ((s.epoch_count + 1) ∈ cfg.finetune_epochs →
        savedPaths (on_epoch_end cfg copyOk s).2 = [checkpointPath cfg (s.epoch_count + 1)] ∧
        (copyOk = true →
          EpochAction.copySidecars (checkpointPath cfg (s.epoch_count + 1)) ∈
            (on_epoch_end cfg copyOk s).2) ∧
        (copyOk = false → EpochAction.warnCopyFail ∈ (on_epoch_end cfg copyOk s).2) ∧
        (cfg.using_validation = true →
          (on_epoch_end cfg copyOk s).1.results_epochs = s.results_epochs ++ [s.epoch_count + 1] ∧
          EpochAction.evalModel ∈ (on_epoch_end cfg copyOk s).2)) ∧
    ((s.epoch_count + 1) ∉ cfg.finetune_epochs → s.early_stop = true →
        (on_epoch_end cfg copyOk s).2 = [EpochAction.evalModel] ∧
        savedPaths (on_epoch_end cfg copyOk s).2 = [] ∧
        (on_epoch_end cfg copyOk s).1.results_epochs = s.results_epochs ++ [s.epoch_count + 1]) ∧
    ((s.epoch_count + 1) ∉ cfg.finetune_epochs → s.early_stop = false →
        (on_epoch_end cfg copyOk s).2 = []) := by
  by_cases hf : s.epoch_count + 1 ∈ cfg.finetune_epochs
  · refine ⟨⟨fun _ => hf, fun _ => ?_⟩, fun _ => ?_,
      fun hnf => absurd hf hnf, fun hnf => absurd hf hnf⟩
    · by_cases hv : cfg.using_validation = true <;> cases copyOk <;>
        simp [on_epoch_end, hf, hv, savedPaths, evalModel]
    · by_cases hv : cfg.using_validation = true <;> cases copyOk <;>
        simp [on_epoch_end, hf, hv, savedPaths, evalModel]
  · refine ⟨⟨fun hne => ?_, fun hmem => absurd hmem hf⟩, fun hmem => absurd hmem hf,
      fun _ hes => ?_, fun _ hes => ?_⟩
    · exact absurd (by cases hes : s.early_stop <;>
        simp [on_epoch_end, hf, hes, savedPaths, evalModel]) hne
    · simp [on_epoch_end, hf, hes, savedPaths, evalModel]
    · simp [on_epoch_end, hf, hes]

/-- Concrete configuration for the C7 amended witness: checkpoint at epoch 1,
validation in use. -/
def c7wcfg : CBConfig where
  early_stop := false
  early_stop_method := "loss"
  early_stop_patience := 0
  model_type := "categorical"
  using_validation := true
  validate_on_batch := 8
  ema_observations := 4
  ema_smoothing := 2
  steps_per_epoch := 10
  finetune_epochs := [1]
  name := some "m"
  outdir := "out"

/-- C7 amended, witnessed at a checkpoint epoch of the concrete run. -/
theorem C7_checkpoint_amended_witness :
    savedPaths (on_epoch_end c7wcfg true (initState 0)).2 =
      [checkpointPath c7wcfg ((initState 0).epoch_count + 1)] ∧
    EpochAction.evalModel ∈ (on_epoch_end c7wcfg true (initState 0)).2 := by
  have h := (C7_checkpoint_amended c7wcfg true (initState 0)).2.1 (by decide)
  exact ⟨h.1, (h.2.2.2 rfl).2⟩

/-- Concrete configuration for the C8 witness. -/
def c8wcfg : CBConfig where
  early_stop := false
  early_stop_method := "loss"
  early_stop_patience := 0
  model_type := "categorical"
  using_validation := true
  validate_on_batch := 8
  ema_observations := 4
  ema_smoothing := 2
  steps_per_epoch := 10
  finetune_epochs := [1]
  name := none
  outdir := "out"

/-- C8: when the sidecar copy fails during checkpointing (`copyOk = false`),
the resulting callback state is identical to the one where the copy succeeds,
the model save action is still emitted, a warning is logged, and the training
stop flag is exactly the pre-existing early-stop flag — the failure is
non-fatal and changes no control flow (in the source the copy sits in a bare
try/except whose handler only logs, lines 298-305). -/
theorem C8_sidecar_copy_nonfatal (cfg : CBConfig) (s : CallbackState)
    (h : s.epoch_count + 1 ∈ cfg.finetune_epochs) :
    (on_epoch_end cfg false s).1 = (on_epoch_end cfg true s).1 ∧
    EpochAction.save (checkpointPath cfg (s.epoch_count + 1)) ∈ (on_epoch_end cfg false s).2 ∧
    EpochAction.warnCopyFail ∈ (on_epoch_end cfg false s).2 ∧
    (on_epoch_end cfg false s).1.stop_training = s.early_stop := by
  by_cases hv : cfg.using_validation = true <;>
    simp [on_epoch_end, h, hv, evalModel]

/-- C8 witnessed at a concrete checkpoint epoch. -/
theorem C8_sidecar_copy_nonfatal_witness :
    (on_epoch_end c8wcfg false (initState 0)).1 = (on_epoch_end c8wcfg true (initState 0)).1 ∧
    EpochAction.save (checkpointPath c8wcfg ((initState 0).epoch_count + 1)) ∈
      (on_epoch_end c8wcfg false (initState 0)).2 ∧
    EpochAction.warnCopyFail ∈ (on_epoch_end c8wcfg false (initState 0)).2 ∧
    (on_epoch_end c8wcfg false (initState 0)).1.stop_training = (initState 0).early_stop :=
  C8_sidecar_copy_nonfatal c8wcfg (initState 0) (by decide)

/-- A nonnegative rational is never the -1 sentinel. -/
theorem ne_neg_one_of_nonneg {x : ℚ} (h : 0 ≤ x) : x ≠ -1 := by
  intro he
  rw [he] at h
  norm_num at h

/-- Invariant of the monitor state in a mode where the monitored metric is
defined: window values are observed nonnegative metric values; the EMA and its
snapshots are the -1 sentinel or nonnegative; snapshots exist only after the
EMA was seeded; the window is bounded by `ema_observations` and exactly full
once the EMA is seeded. -/
def Inv (cfg : CBConfig) (s : CallbackState) : Prop :=
  (∀ x ∈ s.moving_average, 0 ≤ x) ∧
  (s.last_ema = -1 ∨ 0 ≤ s.last_ema) ∧
  (s.ema_one_check_prior = -1 ∨ 0 ≤ s.ema_one_check_prior) ∧
  (s.ema_two_checks_prior = -1 ∨ 0 ≤ s.ema_two_checks_prior) ∧
  (s.ema_one_check_prior ≠ -1 → s.last_ema ≠ -1) ∧
  (s.ema_two_checks_prior ≠ -1 → s.ema_one_check_prior ≠ -1) ∧
  s.moving_average.length ≤ cfg.ema_observations ∧
  (s.last_ema ≠ -1 → s.moving_average.length = cfg.ema_observations)

/-- The EMA update leaves every field other than the window and the EMA
unchanged. -/
theorem emaUpdate_fixed (cfg : CBConfig) (s : CallbackState) (v : ℚ) :
    (emaUpdate cfg s v).1.early_stop = s.early_stop ∧
    (emaUpdate cfg s v).1.epoch_count = s.epoch_count ∧
    (emaUpdate cfg s v).1.ema_one_check_prior = s.ema_one_check_prior ∧
    (emaUpdate cfg s v).1.ema_two_checks_prior = s.ema_two_checks_prior ∧
    (emaUpdate cfg s v).1.stop_training = s.stop_training ∧
    (emaUpdate cfg s v).1.results_epochs = s.results_epochs := by
  unfold emaUpdate
  by_cases h1 : (s.moving_average ++ [v]).length ≤ cfg.ema_observations
  · rw [if_pos h1]
    simp
  · rw [if_neg h1]
    by_cases h2 : s.last_ema = -1
    · rw [if_pos h2]
      simp
    · rw [if_neg h2]
      simp

/-- The EMA update preserves the numeric parts of the invariant: window values
stay nonnegative and bounded, the EMA stays the sentinel or nonnegative, a
seeded EMA stays seeded, and the window is exactly full whenever the EMA is
seeded after the update. -/
theorem emaUpdate_inv (cfg : CBConfig) (s : CallbackState) (v : ℚ)
    (hwin : ∀ x ∈ s.moving_average, 0 ≤ x) (hv : 0 ≤ v)
    (hlast : s.last_ema = -1 ∨ 0 ≤ s.last_ema)
    (hlen : s.moving_average.length ≤ cfg.ema_observations)
    (hfull : s.last_ema ≠ -1 → s.moving_average.length = cfg.ema_observations)
    (hsm0 : 0 ≤ cfg.ema_smoothing)
    (hsm1 : cfg.ema_smoothing ≤ 1 + (cfg.ema_observations : ℚ)) :
    ((emaUpdate cfg s v).1.last_ema = -1 ∨ 0 ≤ (emaUpdate cfg s v).1.last_ema) ∧
    (s.last_ema ≠ -1 → (emaUpdate cfg s v).1.last_ema ≠ -1) ∧
    (∀ x ∈ (emaUpdate cfg s v).1.moving_average, 0 ≤ x) ∧
    (emaUpdate cfg s v).1.moving_average.length ≤ cfg.ema_observations ∧
    ((emaUpdate cfg s v).1.last_ema ≠ -1 →
      (emaUpdate cfg s v).1.moving_average.length = cfg.ema_observations) := by
  have hmemma : ∀ x ∈ s.moving_average ++ [v], 0 ≤ x := by
    intro x hx
    rcases List.mem_append.1 hx with h | h
    · exact hwin x h
    · rcases List.mem_singleton.1 h with rfl
      exact hv
  unfold emaUpdate
  by_cases hcond : (s.moving_average ++ [v]).length ≤ cfg.ema_observations
  · rw [if_pos hcond]
    simp only [List.length_append, List.length_singleton] at hcond
    refine ⟨hlast, fun hne => hne, by simpa using hmemma, by simpa using hcond, fun hne => ?_⟩
    have : s.moving_average.length = cfg.ema_observations := hfull hne
    omega
  · rw [if_neg hcond]
    simp only [List.length_append, List.length_singleton, not_le] at hcond
    have hlen' : s.moving_average.length = cfg.ema_observations := by omega
    have htail : (s.moving_average ++ [v]).tail.length = cfg.ema_observations := by
      simp [List.length_tail, hlen']
    have hmemtail : ∀ x ∈ (s.moving_average ++ [v]).tail, 0 ≤ x := fun x hx =>
      hmemma x (List.tail_subset _ hx)
    by_cases hml : s.last_ema = -1
    · rw [if_pos hml]
      have he : 0 ≤ (s.moving_average ++ [v]).tail.sum /
          (((s.moving_average ++ [v]).tail.length : ℕ) : ℚ) :=
        div_nonneg (List.sum_nonneg hmemtail) (Nat.cast_nonneg _)
      exact ⟨Or.inr (by simpa using he), fun hne => absurd hml hne,
        by simpa using hmemtail, by simp [htail], fun _ => by simp [htail]⟩
    · rw [if_neg hml]
      have hl0 : 0 ≤ s.last_ema := hlast.resolve_left hml
      have hc0 : 0 ≤ cfg.ema_smoothing / (1 + (cfg.ema_observations : ℚ)) :=
        div_nonneg hsm0 (by positivity)
      have hc1 : cfg.ema_smoothing / (1 + (cfg.ema_observations : ℚ)) ≤ 1 := by
        rw [div_le_one (by positivity)]
        exact hsm1
      have he : 0 ≤ v * (cfg.ema_smoothing / (1 + (cfg.ema_observations : ℚ))) +
          s.last_ema * (1 - cfg.ema_smoothing / (1 + (cfg.ema_observations : ℚ))) :=
        add_nonneg (mul_nonneg hv hc0) (mul_nonneg hl0 (by linarith))
      exact ⟨Or.inr (by simpa using he), fun _ => by simpa using ne_neg_one_of_nonneg he,
        by simpa using hmemtail, by simp [htail], fun _ => by simp [htail]⟩

/-- Weak-hypothesis version of the EMA preservation facts, used along full
runs (whose window length facts are not tracked): the EMA stays the sentinel
or nonnegative, a seeded EMA stays seeded, window values stay nonnegative, and
an unseeded EMA after the update was already unseeded before it. -/
theorem emaUpdate_seed (cfg : CBConfig) (s : CallbackState) (v : ℚ)
    (hwin : ∀ x ∈ s.moving_average, 0 ≤ x) (hv : 0 ≤ v)
    (hlast : s.last_ema = -1 ∨ 0 ≤ s.last_ema)
    (hsm0 : 0 ≤ cfg.ema_smoothing)
    (hsm1 : cfg.ema_smoothing ≤ 1 + (cfg.ema_observations : ℚ)) :
    ((emaUpdate cfg s v).1.last_ema = -1 ∨ 0 ≤ (emaUpdate cfg s v).1.last_ema) ∧
    (s.last_ema ≠ -1 → (emaUpdate cfg s v).1.last_ema ≠ -1) ∧
    (∀ x ∈ (emaUpdate cfg s v).1.moving_average, 0 ≤ x) ∧
    ((emaUpdate cfg s v).1.last_ema = -1 → s.last_ema = -1) ∧
    ((emaUpdate cfg s v).1.last_ema = -1 → isSMA (emaUpdate cfg s v).2 = false) := by
  have hmemma : ∀ x ∈ s.moving_average ++ [v], 0 ≤ x := by
    intro x hx
    rcases List.mem_append.1 hx with h | h
    · exact hwin x h
    · rcases List.mem_singleton.1 h with rfl
      exact hv
  have hmemtail : ∀ x ∈ (s.moving_average ++ [v]).tail, 0 ≤ x := fun x hx =>
    hmemma x (List.tail_subset _ hx)
  unfold emaUpdate
  by_cases hcond : (s.moving_average ++ [v]).length ≤ cfg.ema_observations
  · rw [if_pos hcond]
    exact ⟨hlast, fun hne => hne, by simpa using hmemma, fun h => h, fun _ => rfl⟩
  · rw [if_neg hcond]
    by_cases hml : s.last_ema = -1
    · rw [if_pos hml]
      have he : 0 ≤ (s.moving_average ++ [v]).tail.sum /
          (((s.moving_average ++ [v]).tail.length : ℕ) : ℚ) :=
        div_nonneg (List.sum_nonneg hmemtail) (Nat.cast_nonneg _)
      exact ⟨Or.inr (by simpa using he), fun hne => absurd hml hne,
        by simpa using hmemtail,
        fun h => absurd h (by simpa using ne_neg_one_of_nonneg he),
        fun h => absurd h (by simpa using ne_neg_one_of_nonneg he)⟩
    · rw [if_neg hml]
      have hl0 : 0 ≤ s.last_ema := hlast.resolve_left hml
      have hc0 : 0 ≤ cfg.ema_smoothing / (1 + (cfg.ema_observations : ℚ)) :=
        div_nonneg hsm0 (by positivity)
      have hc1 : cfg.ema_smoothing / (1 + (cfg.ema_observations : ℚ)) ≤ 1 := by
        rw [div_le_one (by positivity)]
        exact hsm1
      have he : 0 ≤ v * (cfg.ema_smoothing / (1 + (cfg.ema_observations : ℚ))) +
          s.last_ema * (1 - cfg.ema_smoothing / (1 + (cfg.ema_observations : ℚ))) :=
        add_nonneg (mul_nonneg hv hc0) (mul_nonneg hl0 (by linarith))
      exact ⟨Or.inr (by simpa using he),
        fun _ => by simpa using ne_neg_one_of_nonneg he,
        by simpa using hmemtail,
        fun h => absurd h (by simpa using ne_neg_one_of_nonneg he),
        fun _ => rfl⟩

/-- The EMA update never logs the trigger message, and logs the SMA seeding
message exactly on the check that first pops the window while the EMA is
unseeded. -/
theorem emaUpdate_log (cfg : CBConfig) (s : CallbackState) (v : ℚ) :
    isTriggered (emaUpdate cfg s v).2 = false ∧
    (isSMA (emaUpdate cfg s v).2 = true ↔
      (¬ (s.moving_average ++ [v]).length ≤ cfg.ema_observations ∧ s.last_ema = -1)) := by
  have hlen : (s.moving_average ++ [v]).length = s.moving_average.length + 1 := by simp
  unfold emaUpdate
  by_cases hcond : (s.moving_average ++ [v]).length ≤ cfg.ema_observations
  · rw [if_pos hcond]
    rw [hlen] at hcond
    refine ⟨rfl, ?_⟩
    simp only [isSMA]
    simp
    intro h
    omega
  · rw [if_neg hcond]
    rw [hlen] at hcond
    by_cases hml : s.last_ema = -1
    · rw [if_pos hml]
      refine ⟨rfl, ?_⟩
      simp [isSMA, hml]
      omega
    · rw [if_neg hml]
      refine ⟨rfl, ?_⟩
      simp [isSMA, hml]

/-- Accumulating phase (line 353-354): while the appended window has not
exceeded `ema_observations`, only the value is appended and the base message
logged. -/
theorem emaUpdate_eq_small (cfg : CBConfig) (s : CallbackState) (v : ℚ)
    (h : s.moving_average.length < cfg.ema_observations) :
    emaUpdate cfg s v = ({ s with moving_average := s.moving_average ++ [v] }, .base) := by
  unfold emaUpdate
  rw [if_pos (by simp only [List.length_append, List.length_singleton]; omega)]

/-- Seeding phase (lines 357-361): at a full window with an uninitialized EMA,
the oldest value is popped and the EMA is seeded as the arithmetic mean of the
remaining window. -/
theorem emaUpdate_eq_sma (cfg : CBConfig) (s : CallbackState) (v : ℚ)
    (h : cfg.ema_observations ≤ s.moving_average.length) (hml : s.last_ema = -1) :
    emaUpdate cfg s v =
      ({ s with moving_average := (s.moving_average ++ [v]).tail,
                last_ema := (s.moving_average ++ [v]).tail.sum /
                  ((s.moving_average ++ [v]).tail.length : ℚ) },
        .smaLog ((s.moving_average ++ [v]).tail.sum /
          ((s.moving_average ++ [v]).tail.length : ℚ))) := by
  unfold emaUpdate
  rw [if_neg (by simp only [List.length_append, List.length_singleton]; omega), if_pos hml]

/-- Tracking phase (lines 363-366): at a full window with a seeded EMA, the
oldest value is popped and the exponential update applied. -/
theorem emaUpdate_eq_ema (cfg : CBConfig) (s : CallbackState) (v : ℚ)
    (h : cfg.ema_observations ≤ s.moving_average.length) (hml : s.last_ema ≠ -1) :
    emaUpdate cfg s v =
      ({ s with moving_average := (s.moving_average ++ [v]).tail,
                last_ema := v * (cfg.ema_smoothing / (1 + (cfg.ema_observations : ℚ))) +
                  s.last_ema * (1 - cfg.ema_smoothing / (1 + (cfg.ema_observations : ℚ))) },
        .emaLog (v * (cfg.ema_smoothing / (1 + (cfg.ema_observations : ℚ))) +
          s.last_ema * (1 - cfg.ema_smoothing / (1 + (cfg.ema_observations : ℚ))))) := by
  unfold emaUpdate
  rw [if_neg (by simp only [List.length_append, List.length_singleton]; omega), if_neg hml]

/-- The trigger step leaves the EMA, the window, the epoch counter and the
recorded results unchanged. -/
theorem triggerStep_fixed (cfg : CBConfig) (s : CallbackState) (batch : ℕ) :
    (triggerStep cfg s batch).1.last_ema = s.last_ema ∧
    (triggerStep cfg s batch).1.moving_average = s.moving_average ∧
    (triggerStep cfg s batch).1.epoch_count = s.epoch_count ∧
    (triggerStep cfg s batch).1.results_epochs = s.results_epochs := by
  unfold triggerStep
  by_cases h1 : patienceMet cfg s batch
  · rw [if_pos h1]
    by_cases h2 : notImproving cfg s
    · rw [if_pos h2]
      simp
    · rw [if_neg h2]
      simp
  · rw [if_neg h1]
    simp

/-- Case analysis of the trigger step: either both guard conditions hold and
the trigger fires (flags set, one trigger message), or the flags and logs are
untouched and the conjunction of the conditions fails. -/
theorem triggerStep_cases (cfg : CBConfig) (s : CallbackState) (batch : ℕ) :
    (triggerStep cfg s batch =
        ({ s with stop_training := true, early_stop := true }, [.triggered]) ∧
      patienceMet cfg s batch ∧ notImproving cfg s) ∨
    ((triggerStep cfg s batch).1.early_stop = s.early_stop ∧
      (triggerStep cfg s batch).1.stop_training = s.stop_training ∧
      (triggerStep cfg s batch).2 = [] ∧
      ¬ (patienceMet cfg s batch ∧ notImproving cfg s)) := by
  unfold triggerStep
  by_cases h1 : patienceMet cfg s batch
  · rw [if_pos h1]
    by_cases h2 : notImproving cfg s
    · rw [if_pos h2]
      exact Or.inl ⟨rfl, h1, h2⟩
    · rw [if_neg h2]
      exact Or.inr ⟨by simp, by simp, rfl, fun hc => h2 hc.2⟩
  · rw [if_neg h1]
    exact Or.inr ⟨rfl, rfl, rfl, fun hc => h1 hc.1⟩

/-- In the mode where the monitored metric is undefined, a check only resets
the stop flag, appends the value, and logs the base message. -/
theorem onCheck_invalid (cfg : CBConfig) (s : CallbackState) (batch : ℕ) (v : ℚ)
    (hmode : cfg.model_type ≠ "categorical" ∧ cfg.early_stop_method = "accuracy") :
    onCheck cfg s batch v =
      ({ s with stop_training := false, moving_average := s.moving_average ++ [v] },
        [.base]) := by
  unfold onCheck
  rw [if_pos hmode]

/-- In a mode where the monitored metric is defined, a check runs the EMA
update on the stop-flag-reset state and then the trigger step. -/
theorem onCheck_valid (cfg : CBConfig) (s : CallbackState) (batch : ℕ) (v : ℚ)
    (hmode : ¬ (cfg.model_type ≠ "categorical" ∧ cfg.early_stop_method = "accuracy")) :
    onCheck cfg s batch v =
      ((triggerStep cfg (emaUpdate cfg { s with stop_training := false } v).1 batch).1,
        (emaUpdate cfg { s with stop_training := false } v).2 ::
          (triggerStep cfg (emaUpdate cfg { s with stop_training := false } v).1 batch).2) := by
  unfold onCheck
  rw [if_neg hmode]

/-- The trigger step never logs the SMA seeding message. -/
theorem triggerStep_no_sma (cfg : CBConfig) (s : CallbackState) (batch : ℕ) :
    (triggerStep cfg s batch).2.countP isSMA = 0 := by
  rcases triggerStep_cases cfg s batch with ⟨heq, _, _⟩ | ⟨_, _, hc, _⟩
  · rw [heq]
    simp [isSMA]
  · rw [hc]
    rfl

/-- Each check either leaves the stop flag clear, the early-stop flag as it
was, and logs no trigger message, or fires the trigger, setting both flags and
logging exactly one trigger message. -/
theorem onCheck_dichotomy (cfg : CBConfig) (s : CallbackState) (batch : ℕ) (v : ℚ) :
    ((onCheck cfg s batch v).1.stop_training = false ∧
      (onCheck cfg s batch v).1.early_stop = s.early_stop ∧
      (onCheck cfg s batch v).2.countP isTriggered = 0) ∨
    ((onCheck cfg s batch v).1.stop_training = true ∧
      (onCheck cfg s batch v).1.early_stop = true ∧
      (onCheck cfg s batch v).2.countP isTriggered = 1) := by
  by_cases hmode : cfg.model_type ≠ "categorical" ∧ cfg.early_stop_method = "accuracy"
  · rw [onCheck_invalid cfg s batch v hmode]
    left
    exact ⟨rfl, rfl, by simp [isTriggered]⟩
  · rw [onCheck_valid cfg s batch v hmode]
    have hfix := emaUpdate_fixed cfg { s with stop_training := false } v
    have hlog := (emaUpdate_log cfg { s with stop_training := false } v).1
    rcases triggerStep_cases cfg (emaUpdate cfg { s with stop_training := false } v).1 batch
      with ⟨heq, _, _⟩ | ⟨ha, hb, hc, _⟩
    · right
      rw [heq]
      refine ⟨rfl, rfl, ?_⟩
      simp only [List.countP_cons, List.countP_nil, hlog]
      simp [isTriggered]
    · left
      refine ⟨?_, ?_, ?_⟩
      · rw [hb, hfix.2.2.2.2.1]
      · rw [ha, hfix.1]
      · rw [hc]
        simp only [List.countP_cons, List.countP_nil, hlog]
        simp

/-- Counting facts for the SMA seeding message along one check, with
preservation of the numeric facts carried along a run: the seeding message
appears at most once per check, never once the EMA is seeded, and a seeded EMA
stays seeded. -/
theorem onCheck_sma (cfg : CBConfig) (s : CallbackState) (batch : ℕ) (v : ℚ)
    (hwin : ∀ x ∈ s.moving_average, 0 ≤ x) (hv : 0 ≤ v)
    (hlast : s.last_ema = -1 ∨ 0 ≤ s.last_ema)
    (hsm0 : 0 ≤ cfg.ema_smoothing)
    (hsm1 : cfg.ema_smoothing ≤ 1 + (cfg.ema_observations : ℚ)) :
    (onCheck cfg s batch v).2.countP isSMA ≤ 1 ∧
    (s.last_ema ≠ -1 →
      (onCheck cfg s batch v).2.countP isSMA = 0 ∧ (onCheck cfg s batch v).1.last_ema ≠ -1) ∧
    ((onCheck cfg s batch v).1.last_ema = -1 → (onCheck cfg s batch v).2.countP isSMA = 0) ∧
    (∀ x ∈ (onCheck cfg s batch v).1.moving_average, 0 ≤ x) ∧
    ((onCheck cfg s batch v).1.last_ema = -1 ∨ 0 ≤ (onCheck cfg s batch v).1.last_ema) := by
  by_cases hmode : cfg.model_type ≠ "categorical" ∧ cfg.early_stop_method = "accuracy"
  · rw [onCheck_invalid cfg s batch v hmode]
    refine ⟨by simp [isSMA], fun hne => ⟨by simp [isSMA], hne⟩, fun _ => by simp [isSMA],
      ?_, hlast⟩
    intro x hx
    rcases List.mem_append.1 hx with h | h
    · exact hwin x h
    · rcases List.mem_singleton.1 h with rfl
      exact hv
  · rw [onCheck_valid cfg s batch v hmode]
    have hwin0 : ∀ x ∈ ({ s with stop_training := false } : CallbackState).moving_average,
        0 ≤ x := hwin
    have hlast0 : ({ s with stop_training := false } : CallbackState).last_ema = -1 ∨
        0 ≤ ({ s with stop_training := false } : CallbackState).last_ema := hlast
    have hseed := emaUpdate_seed cfg { s with stop_training := false } v hwin0 hv hlast0 hsm0 hsm1
    have hfix := triggerStep_fixed cfg (emaUpdate cfg { s with stop_training := false } v).1 batch
    have hns := triggerStep_no_sma cfg (emaUpdate cfg { s with stop_training := false } v).1 batch
    refine ⟨?_, fun hne => ⟨?_, ?_⟩, fun hz => ?_, ?_, ?_⟩
    · simp only [List.countP_cons, hns]
      by_cases hb : isSMA (emaUpdate cfg { s with stop_training := false } v).2 <;> simp [hb]
    · have : isSMA (emaUpdate cfg { s with stop_training := false } v).2 = false := by
        rcases Bool.eq_false_or_eq_true
            (isSMA (emaUpdate cfg { s with stop_training := false } v).2) with h | h
        · exact absurd ((emaUpdate_log cfg { s with stop_training := false } v).2.mp h).2 hne
        · exact h
      simp [List.countP_cons, hns, this]
    · rw [hfix.1]
      exact hseed.2.1 hne
    · rw [hfix.1] at hz
      have : isSMA (emaUpdate cfg { s with stop_training := false } v).2 = false :=
        hseed.2.2.2.2 hz
      simp [List.countP_cons, hns, this]
    · intro x hx
      rw [hfix.2.1] at hx
      exact hseed.2.2.1 x hx
    · rw [hfix.1]
      exact hseed.1

/-- Wrapper dichotomy for `on_train_batch_end` starting from a running state:
either no trigger (stop flag stays clear, early-stop flag unchanged, no
trigger message) or the trigger fires. -/
theorem on_batch_dichotomy (cfg : CBConfig) (s : CallbackState) (batch : ℕ) (v : ℚ)
    (hst : s.stop_training = false) :
    ((on_train_batch_end cfg s batch v).1.stop_training = false ∧
      (on_train_batch_end cfg s batch v).1.early_stop = s.early_stop ∧
      (on_train_batch_end cfg s batch v).2.countP isTriggered = 0) ∨
    ((on_train_batch_end cfg s batch v).1.stop_training = true ∧
      (on_train_batch_end cfg s batch v).1.early_stop = true ∧
      (on_train_batch_end cfg s batch v).2.countP isTriggered = 1) := by
  unfold on_train_batch_end
  by_cases hg : cfg.using_validation = true ∧ cfg.validate_on_batch ≠ 0 ∧ 0 < batch ∧
      batch % cfg.validate_on_batch = 0
  · rw [if_pos hg]
    exact onCheck_dichotomy cfg s batch v
  · rw [if_neg hg]
    exact Or.inl ⟨hst, rfl, rfl⟩

/-- Wrapper version of the SMA counting facts for `on_train_batch_end`. -/
theorem on_batch_sma (cfg : CBConfig) (s : CallbackState) (batch : ℕ) (v : ℚ)
    (hwin : ∀ x ∈ s.moving_average, 0 ≤ x) (hv : 0 ≤ v)
    (hlast : s.last_ema = -1 ∨ 0 ≤ s.last_ema)
    (hsm0 : 0 ≤ cfg.ema_smoothing)
    (hsm1 : cfg.ema_smoothing ≤ 1 + (cfg.ema_observations : ℚ)) :
    (on_train_batch_end cfg s batch v).2.countP isSMA ≤ 1 ∧
    (s.last_ema ≠ -1 →
      (on_train_batch_end cfg s batch v).2.countP isSMA = 0 ∧
      (on_train_batch_end cfg s batch v).1.last_ema ≠ -1) ∧
    ((on_train_batch_end cfg s batch v).1.last_ema = -1 →
      (on_train_batch_end cfg s batch v).2.countP isSMA = 0) ∧
    (∀ x ∈ (on_train_batch_end cfg s batch v).1.moving_average, 0 ≤ x) ∧
    ((on_train_batch_end cfg s batch v).1.last_ema = -1 ∨
      0 ≤ (on_train_batch_end cfg s batch v).1.last_ema) := by
  unfold on_train_batch_end
  by_cases hg : cfg.using_validation = true ∧ cfg.validate_on_batch ≠ 0 ∧ 0 < batch ∧
      batch % cfg.validate_on_batch = 0
  · rw [if_pos hg]
    exact onCheck_sma cfg s batch v hwin hv hlast hsm0 hsm1
  · rw [if_neg hg]
    exact ⟨by simp, fun hne => ⟨rfl, hne⟩, fun _ => rfl, hwin, hlast⟩

/-- Once the Keras loop's stop flag is set, no further batch checks run. -/
theorem runChecks_stopped (cfg : CBConfig) (s : CallbackState) (xs : List (ℕ × ℚ))
    (h : s.stop_training = true) : runChecks cfg s xs = (s, []) := by
  cases xs with
  | nil => rfl
  | cons p rest =>
    obtain ⟨b, v⟩ := p
    unfold runChecks
    rw [if_pos h]

/-- Epoch-level dichotomy: over an epoch's batch checks, either no trigger
fires (stop flag clear, early-stop flag unchanged, no trigger message) or the
trigger fires exactly once and both flags end set. -/
theorem runChecks_dichotomy (cfg : CBConfig) (xs : List (ℕ × ℚ)) (s : CallbackState)
    (hst : s.stop_training = false) :
    ((runChecks cfg s xs).1.stop_training = false ∧
      (runChecks cfg s xs).1.early_stop = s.early_stop ∧
      (runChecks cfg s xs).2.countP isTriggered = 0) ∨
    ((runChecks cfg s xs).1.stop_training = true ∧
      (runChecks cfg s xs).1.early_stop = true ∧
      (runChecks cfg s xs).2.countP isTriggered = 1) := by
  induction xs generalizing s with
  | nil => exact Or.inl ⟨hst, rfl, rfl⟩
  | cons p rest ih =>
    obtain ⟨b, v⟩ := p
    unfold runChecks
    rw [if_neg (by simp [hst])]
    rcases on_batch_dichotomy cfg s b v hst with ⟨h1, h2, h3⟩ | ⟨h1, h2, h3⟩
    · rcases ih (on_train_batch_end cfg s b v).1 h1 with ⟨g1, g2, g3⟩ | ⟨g1, g2, g3⟩
      · exact Or.inl ⟨g1, by rw [g2, h2], by simp [List.countP_append, h3, g3]⟩
      · exact Or.inr ⟨g1, g2, by simp [List.countP_append, h3, g3]⟩
    · rw [runChecks_stopped cfg (on_train_batch_end cfg s b v).1 rest h1]
      exact Or.inr ⟨h1, h2, by simp [List.countP_append, h3]⟩

/-- Epoch-level SMA counting: the seeding message appears at most once, never
once the EMA is seeded, and the numeric facts are preserved. -/
theorem runChecks_sma (cfg : CBConfig) (xs : List (ℕ × ℚ)) (s : CallbackState)
    (hvals : ∀ p ∈ xs, 0 ≤ p.2)
    (hwin : ∀ x ∈ s.moving_average, 0 ≤ x)
    (hlast : s.last_ema = -1 ∨ 0 ≤ s.last_ema)
    (hsm0 : 0 ≤ cfg.ema_smoothing)
    (hsm1 : cfg.ema_smoothing ≤ 1 + (cfg.ema_observations : ℚ)) :
    (runChecks cfg s xs).2.countP isSMA ≤ 1 ∧
    (s.last_ema ≠ -1 →
      (runChecks cfg s xs).2.countP isSMA = 0 ∧ (runChecks cfg s xs).1.last_ema ≠ -1) ∧
    ((runChecks cfg s xs).1.last_ema = -1 → (runChecks cfg s xs).2.countP isSMA = 0) ∧
    (∀ x ∈ (runChecks cfg s xs).1.moving_average, 0 ≤ x) ∧
    ((runChecks cfg s xs).1.last_ema = -1 ∨ 0 ≤ (runChecks cfg s xs).1.last_ema) := by
  induction xs generalizing s with
  | nil => exact ⟨Nat.zero_le 1, fun hne => ⟨rfl, hne⟩, fun _ => rfl, hwin, hlast⟩
  | cons p rest ih =>
    obtain ⟨b, v⟩ := p
    have hv : 0 ≤ v := hvals (b, v) (List.mem_cons_self _ _)
    have hvals' : ∀ q ∈ rest, 0 ≤ q.2 := fun q hq => hvals q (List.mem_cons_of_mem _ hq)
    by_cases hstop : s.stop_training = true
    · rw [runChecks_stopped cfg s _ hstop]
      exact ⟨Nat.zero_le 1, fun hne => ⟨rfl, hne⟩, fun _ => rfl, hwin, hlast⟩
    · unfold runChecks
      rw [if_neg hstop]
      have hb := on_batch_sma cfg s b v hwin hv hlast hsm0 hsm1
      have hr := ih (on_train_batch_end cfg s b v).1 hvals' hb.2.2.2.1 hb.2.2.2.2
      refine ⟨?_, ?_, ?_, hr.2.2.2.1, hr.2.2.2.2⟩
      · by_cases hs1 : (on_train_batch_end cfg s b v).1.last_ema = -1
        · have h0 := hb.2.2.1 hs1
          simp [List.countP_append, h0]
          omega
        · have h0 := (hr.2.1 hs1).1
          simp [List.countP_append, h0]
          omega
      · intro hne
        obtain ⟨hc0, hs1⟩ := hb.2.1 hne
        obtain ⟨hc1, hfin⟩ := hr.2.1 hs1
        exact ⟨by simp [List.countP_append, hc0, hc1], hfin⟩
      · intro hfin
        have hs1 : (on_train_batch_end cfg s b v).1.last_ema = -1 := by
          by_contra hs1
          exact (hr.2.1 hs1).2 hfin
        have hc0 := hb.2.2.1 hs1
        have hc1 := hr.2.2.1 hfin
        simp [List.countP_append, hc0, hc1]

/-- `on_epoch_end` leaves the monitor fields unchanged and sets the stop flag
to the early-stop flag. -/
theorem on_epoch_end_monitor (cfg : CBConfig) (ok : Bool) (s : CallbackState) :
    (on_epoch_end cfg ok s).1.last_ema = s.last_ema ∧
    (on_epoch_end cfg ok s).1.moving_average = s.moving_average ∧
    (on_epoch_end cfg ok s).1.early_stop = s.early_stop ∧
    (on_epoch_end cfg ok s).1.stop_training = s.early_stop := by
  by_cases h1 : s.epoch_count + 1 ∈ cfg.finetune_epochs <;>
    by_cases h2 : cfg.using_validation = true <;>
    by_cases h3 : s.early_stop = true <;>
    simp [on_epoch_end, h1, h2, h3, evalModel]

/-- Over a full training run the early-stop trigger fires at most once: once
it fires the stop flag halts the batch loop and then the epoch loop. -/
theorem runTraining_trigger (cfg : CBConfig) (eps : List (List (ℕ × ℚ)))
    (s : CallbackState) (hst : s.stop_training = false) (hes : s.early_stop = false) :
    (runTraining cfg s eps).2.1.countP isTriggered ≤ 1 := by
  induction eps generalizing s with
  | nil => exact Nat.zero_le 1
  | cons ep rest ih =>
    have hmon := on_epoch_end_monitor cfg true (runChecks cfg s ep).1
    unfold runTraining
    rcases runChecks_dichotomy cfg ep s hst with ⟨h1, h2, h3⟩ | ⟨h1, h2, h3⟩
    · have hs2stop : (on_epoch_end cfg true (runChecks cfg s ep).1).1.stop_training = false := by
        rw [hmon.2.2.2, h2, hes]
      have hs2es : (on_epoch_end cfg true (runChecks cfg s ep).1).1.early_stop = false := by
        rw [hmon.2.2.1, h2, hes]
      rw [if_neg (by simp [hs2stop])]
      have hrest := ih (on_epoch_end cfg true (runChecks cfg s ep).1).1 hs2stop hs2es
      simp only [List.countP_append, h3]
      omega
    · have hs2stop : (on_epoch_end cfg true (runChecks cfg s ep).1).1.stop_training = true := by
        rw [hmon.2.2.2, h2]
      rw [if_pos hs2stop]
      simp [h3]

/-- Over a full training run the SMA seeding message appears at most once,
and never if the EMA is already seeded at the start. -/
theorem runTraining_sma (cfg : CBConfig) (eps : List (List (ℕ × ℚ))) (s : CallbackState)
    (hvals : ∀ ep ∈ eps, ∀ p ∈ ep, 0 ≤ p.2)
    (hwin : ∀ x ∈ s.moving_average, 0 ≤ x)
    (hlast : s.last_ema = -1 ∨ 0 ≤ s.last_ema)
    (hsm0 : 0 ≤ cfg.ema_smoothing)
    (hsm1 : cfg.ema_smoothing ≤ 1 + (cfg.ema_observations : ℚ)) :
    (runTraining cfg s eps).2.1.countP isSMA ≤ 1 ∧
    (s.last_ema ≠ -1 → (runTraining cfg s eps).2.1.countP isSMA = 0) := by
  induction eps generalizing s with
  | nil => exact ⟨Nat.zero_le 1, fun _ => rfl⟩
  | cons ep rest ih =>
    have hv : ∀ p ∈ ep, 0 ≤ p.2 := hvals ep (List.mem_cons_self _ _)
    have hvals' : ∀ e ∈ rest, ∀ p ∈ e, 0 ≤ p.2 := fun e he => hvals e (List.mem_cons_of_mem _ he)
    have hch := runChecks_sma cfg ep s hv hwin hlast hsm0 hsm1
    have hmon := on_epoch_end_monitor cfg true (runChecks cfg s ep).1
    unfold runTraining
    by_cases hs2stop : (on_epoch_end cfg true (runChecks cfg s ep).1).1.stop_training = true
    · rw [if_pos hs2stop]
      exact ⟨hch.1, fun hne => (hch.2.1 hne).1⟩
    · rw [if_neg hs2stop]
      have hwin2 : ∀ x ∈ (on_epoch_end cfg true (runChecks cfg s ep).1).1.moving_average,
          0 ≤ x := by
        rw [hmon.2.1]
        exact hch.2.2.2.1
      have hlast2 : (on_epoch_end cfg true (runChecks cfg s ep).1).1.last_ema = -1 ∨
          0 ≤ (on_epoch_end cfg true (runChecks cfg s ep).1).1.last_ema := by
        rw [hmon.1]
        exact hch.2.2.2.2
      have hrest := ih (on_epoch_end cfg true (runChecks cfg s ep).1).1 hvals' hwin2 hlast2
      constructor
      · by_cases hs1 : (runChecks cfg s ep).1.last_ema = -1
        · have h0 := hch.2.2.1 hs1
          simp only [List.countP_append, h0]
          omega
        · have h0 : (on_epoch_end cfg true (runChecks cfg s ep).1).1.last_ema ≠ -1 := by
            rw [hmon.1]
            exact hs1
          have h2 := hrest.2 h0
          simp only [List.countP_append, h2]
          omega
      · intro hne
        obtain ⟨hc0, hs1⟩ := hch.2.1 hne
        have h0 : (on_epoch_end cfg true (runChecks cfg s ep).1).1.last_ema ≠ -1 := by
          rw [hmon.1]
          exact hs1
        simp [List.countP_append, hc0, hrest.2 h0]

/-- In the mode where the monitored metric is undefined, a batch end leaves
the early-stop flag and the EMA untouched, keeps a clear stop flag clear, and
logs only base messages. -/
theorem on_batch_invalid (cfg : CBConfig)
    (hmode : cfg.model_type ≠ "categorical" ∧ cfg.early_stop_method = "accuracy")
    (s : CallbackState) (b : ℕ) (v : ℚ) :
    (on_train_batch_end cfg s b v).1.early_stop = s.early_stop ∧
    (on_train_batch_end cfg s b v).1.last_ema = s.last_ema ∧
    (s.stop_training = false → (on_train_batch_end cfg s b v).1.stop_training = false) ∧
    ((on_train_batch_end cfg s b v).2.all isBase) = true := by
  unfold on_train_batch_end
  by_cases hg : cfg.using_validation = true ∧ cfg.validate_on_batch ≠ 0 ∧ 0 < b ∧
      b % cfg.validate_on_batch = 0
  · rw [if_pos hg, onCheck_invalid cfg s b v hmode]
    exact ⟨rfl, rfl, fun _ => rfl, by simp [isBase]⟩
  · rw [if_neg hg]
    exact ⟨rfl, rfl, fun h => h, rfl⟩

/-- Epoch-level version of the invalid-mode facts. -/
theorem runChecks_invalid (cfg : CBConfig)
    (hmode : cfg.model_type ≠ "categorical" ∧ cfg.early_stop_method = "accuracy")
    (xs : List (ℕ × ℚ)) (s : CallbackState) :
    (runChecks cfg s xs).1.early_stop = s.early_stop ∧
    (runChecks cfg s xs).1.last_ema = s.last_ema ∧
    ((runChecks cfg s xs).2.all isBase) = true := by
  induction xs generalizing s with
  | nil => exact ⟨rfl, rfl, rfl⟩
  | cons p rest ih =>
    obtain ⟨b, v⟩ := p
    by_cases hstop : s.stop_training = true
    · rw [runChecks_stopped cfg s _ hstop]
      exact ⟨rfl, rfl, rfl⟩
    · unfold runChecks
      rw [if_neg hstop]
      have hb := on_batch_invalid cfg hmode s b v
      have hr := ih (on_train_batch_end cfg s b v).1
      refine ⟨by rw [hr.1, hb.1], by rw [hr.2.1, hb.2.1], ?_⟩
      simp [List.all_append, hb.2.2.2, hr.2.2]

/-- Run-level version of the invalid-mode facts: the flag stays clear, the EMA
stays untouched, and every batch-check log is the base message. -/
theorem runTraining_invalid (cfg : CBConfig)
    (hmode : cfg.model_type ≠ "categorical" ∧ cfg.early_stop_method = "accuracy")
    (eps : List (List (ℕ × ℚ))) (s : CallbackState) (hes : s.early_stop = false) :
    (runTraining cfg s eps).1.early_stop = false ∧
    (runTraining cfg s eps).1.last_ema = s.last_ema ∧
    ((runTraining cfg s eps).2.1.all isBase) = true := by
  induction eps generalizing s with
  | nil => exact ⟨hes, rfl, rfl⟩
  | cons ep rest ih =>
    have hch := runChecks_invalid cfg hmode ep s
    have hmon := on_epoch_end_monitor cfg true (runChecks cfg s ep).1
    have hs2es : (on_epoch_end cfg true (runChecks cfg s ep).1).1.early_stop = false := by
      rw [hmon.2.2.1, hch.1, hes]
    have hs2stop : (on_epoch_end cfg true (runChecks cfg s ep).1).1.stop_training = false := by
      rw [hmon.2.2.2, hch.1, hes]
    unfold runTraining
    rw [if_neg (by simp [hs2stop])]
    have hr := ih (on_epoch_end cfg true (runChecks cfg s ep).1).1 hs2es
    refine ⟨hr.1, ?_, ?_⟩
    · rw [hr.2.1, hmon.1, hch.2.1]
    · simp [List.all_append, hch.2.2, hr.2.2]

/-- C10: with `early_stop_method` set to accuracy and a non-categorical model
type, the monitor only logs the validation result at each check over the
entire run: every batch-check log is the base message (no SMA or EMA smoothing
suffix and no trigger message), the EMA is never seeded, and the early-stop
flag is never set — in particular no metric (the substituted loss value
included) is ever used for triggering. -/
theorem C10_accuracy_noncategorical_log_only (cfg : CBConfig) (st : Int)
    (epochs : List (List (ℕ × ℚ)))
    (hmt : cfg.model_type ≠ "categorical") (hm : cfg.early_stop_method = "accuracy") :
    (runTraining cfg (initState st) epochs).1.early_stop = false ∧
    (runTraining cfg (initState st) epochs).1.last_ema = -1 ∧
    ((runTraining cfg (initState st) epochs).2.1.all isBase) = true := by
  have h := runTraining_invalid cfg ⟨hmt, hm⟩ epochs (initState st) rfl
  refine ⟨h.1, ?_, h.2.2⟩
  rw [h.2.1]
  rfl

/-- Concrete configuration for the C10 witness: a linear model monitored with
the accuracy method. -/
def c10wcfg : CBConfig where
  early_stop := true
  early_stop_method := "accuracy"
  early_stop_patience := 0
  model_type := "linear"
  using_validation := true
  validate_on_batch := 1
  ema_observations := 1
  ema_smoothing := 0
  steps_per_epoch := 1
  finetune_epochs := [1]
  name := none
  outdir := "out"

/-- C10 witnessed at a concrete one-epoch run with one validation check. -/
theorem C2_ema_window_phases (cfg : CBConfig) (s : CallbackState) (batch : ℕ) (v : ℚ)
    (st : Int) (epochs : List (List (ℕ × ℚ)))
    (hmode : ¬ (cfg.model_type ≠ "categorical" ∧ cfg.early_stop_method = "accuracy"))
    (hvals : ∀ ep ∈ epochs, ∀ p ∈ ep, 0 ≤ p.2)
    (hsm0 : 0 ≤ cfg.ema_smoothing)
    (hsm1 : cfg.ema_smoothing ≤ 1 + (cfg.ema_observations : ℚ)) :
    (s.moving_average.length < cfg.ema_observations →
      (onCheck cfg s batch v).1.moving_average = s.moving_average ++ [v] ∧
      (onCheck cfg s batch v).1.last_ema = s.last_ema ∧
      (onCheck cfg s batch v).2.head? = some LogKind.base) ∧
    (cfg.ema_observations ≤ s.moving_average.length →
      (onCheck cfg s batch v).1.moving_average = (s.moving_average ++ [v]).tail ∧
      (s.last_ema = -1 →
        (onCheck cfg s batch v).1.last_ema =
          (s.moving_average ++ [v]).tail.sum / ((s.moving_average ++ [v]).tail.length : ℚ) ∧
        (onCheck cfg s batch v).2.head? =
          some (LogKind.smaLog ((onCheck cfg s batch v).1.last_ema))) ∧
      (s.last_ema ≠ -1 →
        (onCheck cfg s batch v).1.last_ema =
          v * (cfg.ema_smoothing / (1 + (cfg.ema_observations : ℚ))) +
            s.last_ema * (1 - cfg.ema_smoothing / (1 + (cfg.ema_observations : ℚ))) ∧
        (onCheck cfg s batch v).2.head? =
          some (LogKind.emaLog ((onCheck cfg s batch v).1.last_ema)))) ∧
    (s.moving_average.length ≤ cfg.ema_observations →
      (onCheck cfg s batch v).1.moving_average.length ≤ cfg.ema_observations) ∧
    (runTraining cfg (initState st) epochs).2.1.countP isSMA ≤ 1 := by
  rw [onCheck_valid cfg s batch v hmode]
  have hT := triggerStep_fixed cfg (emaUpdate cfg { s with stop_training := false } v).1 batch
  refine ⟨fun hlt => ?_, fun hge => ?_, fun hle => ?_, ?_⟩
  · have hlt0 : ({ s with stop_training := false } : CallbackState).moving_average.length <
        cfg.ema_observations := hlt
    refine ⟨?_, ?_, ?_⟩
    · rw [hT.2.1, emaUpdate_eq_small cfg { s with stop_training := false } v hlt0]
    · rw [hT.1, emaUpdate_eq_small cfg { s with stop_training := false } v hlt0]
    · rw [emaUpdate_eq_small cfg { s with stop_training := false } v hlt0]
      rfl
  · have hge0 : cfg.ema_observations ≤
        ({ s with stop_training := false } : CallbackState).moving_average.length := hge
    refine ⟨?_, fun hml => ?_, fun hml => ?_⟩
    · by_cases hml : s.last_ema = -1
      · have hml0 : ({ s with stop_training := false } : CallbackState).last_ema = -1 := hml
        rw [hT.2.1, emaUpdate_eq_sma cfg { s with stop_training := false } v hge0 hml0]
      · have hml0 : ({ s with stop_training := false } : CallbackState).last_ema ≠ -1 := hml
        rw [hT.2.1, emaUpdate_eq_ema cfg { s with stop_training := false } v hge0 hml0]
    · have hml0 : ({ s with stop_training := false } : CallbackState).last_ema = -1 := hml
      constructor
      · rw [hT.1, emaUpdate_eq_sma cfg { s with stop_training := false } v hge0 hml0]
      · rw [hT.1, emaUpdate_eq_sma cfg { s with stop_training := false } v hge0 hml0]
        rfl
    · have hml0 : ({ s with stop_training := false } : CallbackState).last_ema ≠ -1 := hml
      constructor
      · rw [hT.1, emaUpdate_eq_ema cfg { s with stop_training := false } v hge0 hml0]
      · rw [hT.1, emaUpdate_eq_ema cfg { s with stop_training := false } v hge0 hml0]
        rfl
  · by_cases hlt : s.moving_average.length < cfg.ema_observations
    · have hlt0 : ({ s with stop_training := false } : CallbackState).moving_average.length <
          cfg.ema_observations := hlt
      rw [hT.2.1, emaUpdate_eq_small cfg { s with stop_training := false } v hlt0]
      simp
      omega
    · have hge' : cfg.ema_observations ≤ s.moving_average.length := by omega
      have hge0 : cfg.ema_observations ≤
          ({ s with stop_training := false } : CallbackState).moving_average.length := hge'
      by_cases hml : s.last_ema = -1
      · have hml0 : ({ s with stop_training := false } : CallbackState).last_ema = -1 := hml
        rw [hT.2.1, emaUpdate_eq_sma cfg { s with stop_training := false } v hge0 hml0]
        simp [List.length_tail]
        omega
      · have hml0 : ({ s with stop_training := false } : CallbackState).last_ema ≠ -1 := hml
        rw [hT.2.1, emaUpdate_eq_ema cfg { s with stop_training := false } v hge0 hml0]
        simp [List.length_tail]
        omega
  · refine (runTraining_sma cfg epochs (initState st) hvals ?_ (Or.inl rfl) hsm0 hsm1).1
    intro x hx
    exact absurd hx (List.not_mem_nil x)

/-- C1: at a batch-interval validation check in a monitored mode with early
stopping enabled, starting from a reachable (invariant-satisfying) state whose
flag is still clear, the early-stop flag is set if and only if the elapsed
fractional-epoch count (current batch over steps per epoch, plus the epoch
count) exceeds `early_stop_patience`, the two-checks-prior EMA snapshot
exists, and the current post-update EMA has failed to improve on it (at most
equal for the accuracy method, at least equal for the loss method); whenever
the flag is set the EMA is seeded and the window has filled; and over a full
training run the trigger fires at most once (the stop flag halts the loops). -/
theorem C1_early_stop_trigger (cfg : CBConfig) (s : CallbackState) (batch : ℕ) (v : ℚ)
    (st : Int) (epochs : List (List (ℕ × ℚ)))
    (hinv : Inv cfg s) (hes : cfg.early_stop = true)
    (hmode : ¬ (cfg.model_type ≠ "categorical" ∧ cfg.early_stop_method = "accuracy"))
    (hflag : s.early_stop = false) (hv : 0 ≤ v)
    (hsm0 : 0 ≤ cfg.ema_smoothing)
    (hsm1 : cfg.ema_smoothing ≤ 1 + (cfg.ema_observations : ℚ)) :
    ((onCheck cfg s batch v).1.early_stop = true ↔
      ((batch : ℚ) / (cfg.steps_per_epoch : ℚ) + (s.epoch_count : ℚ) >
          (cfg.early_stop_patience : ℚ) ∧
        s.ema_two_checks_prior ≠ -1 ∧
        ((cfg.early_stop_method = "accuracy" ∧
            (onCheck cfg s batch v).1.last_ema ≤ s.ema_two_checks_prior) ∨
          (cfg.early_stop_method = "loss" ∧
            s.ema_two_checks_prior ≤ (onCheck cfg s batch v).1.last_ema)))) ∧
    ((onCheck cfg s batch v).1.early_stop = true →
      (onCheck cfg s batch v).1.last_ema ≠ -1 ∧
      (onCheck cfg s batch v).1.moving_average.length = cfg.ema_observations) ∧
    (runTraining cfg (initState st) epochs).2.1.countP isTriggered ≤ 1 := by
  obtain ⟨hwin, hlast, hone, htwo, honei, htwoi, hlen, hfull⟩ := hinv
  rw [onCheck_valid cfg s batch v hmode]
  have hwin0 : ∀ x ∈ ({ s with stop_training := false } : CallbackState).moving_average,
      0 ≤ x := hwin
  have hlast0 : ({ s with stop_training := false } : CallbackState).last_ema = -1 ∨
      0 ≤ ({ s with stop_training := false } : CallbackState).last_ema := hlast
  have hlen0 : ({ s with stop_training := false } : CallbackState).moving_average.length ≤
      cfg.ema_observations := hlen
  have hfull0 : ({ s with stop_training := false } : CallbackState).last_ema ≠ -1 →
      ({ s with stop_training := false } : CallbackState).moving_average.length =
        cfg.ema_observations := hfull
  have hE := emaUpdate_inv cfg { s with stop_training := false } v hwin0 hv hlast0 hlen0
    hfull0 hsm0 hsm1
  have hEf := emaUpdate_fixed cfg { s with stop_training := false } v
  have hT := triggerStep_fixed cfg (emaUpdate cfg { s with stop_training := false } v).1 batch
  have hseed : s.ema_two_checks_prior ≠ -1 →
      (emaUpdate cfg { s with stop_training := false } v).1.last_ema ≠ -1 := fun h2 =>
    hE.2.1 (honei (htwoi h2))
  rw [hT.1]
  rcases triggerStep_cases cfg (emaUpdate cfg { s with stop_training := false } v).1 batch
    with ⟨heq, hpm, hni⟩ | ⟨ha, hb, hc, hnc⟩
  · rw [heq]
    refine ⟨⟨fun _ => ⟨?_, ?_, ?_⟩, fun _ => rfl⟩,
      fun _ => ⟨hpm.2.1, hE.2.2.2.2 hpm.2.1⟩,
      runTraining_trigger cfg epochs (initState st) rfl rfl⟩
    · have hfrac := hpm.2.2
      rw [hEf.2.1] at hfrac
      exact hfrac
    · have h2 := hni.1
      rw [hEf.2.2.2.1] at h2
      exact h2
    · have h2 := hni.2
      rw [hEf.2.2.2.1] at h2
      exact h2
  · have hE1es : (emaUpdate cfg { s with stop_training := false } v).1.early_stop = false := by
      rw [hEf.1]
      exact hflag
    rw [ha, hE1es]
    refine ⟨⟨fun h => absurd h (by decide), ?_⟩, fun h => absurd h (by decide),
      runTraining_trigger cfg epochs (initState st) rfl rfl⟩
    rintro ⟨hfrac, htwo', hcmp⟩
    exfalso
    apply hnc
    refine ⟨⟨hes, hseed htwo', ?_⟩, ?_, ?_⟩
    · rw [hEf.2.1]
      exact hfrac
    · rw [hEf.2.2.2.1]
      exact htwo'
    · rw [hEf.2.2.2.1]
      exact hcmp

/-- Concrete configuration for the C1 witness. -/
def c1wcfg : CBConfig where
  early_stop := true
  early_stop_method := "loss"
  early_stop_patience := 0
  model_type := "categorical"
  using_validation := true
  validate_on_batch := 1
  ema_observations := 1
  ema_smoothing := 0
  steps_per_epoch := 1
  finetune_epochs := [1]
  name := none
  outdir := "out"

/-- C1 witnessed at the initial monitor state (no trigger can fire before the
snapshots exist) and at a concrete run. -/
theorem C1_early_stop_trigger_witness :
    ((onCheck c1wcfg (initState 0) 1 0).1.early_stop = true ↔
      (((1 : ℕ) : ℚ) / ((c1wcfg.steps_per_epoch : ℕ) : ℚ) +
          (((initState 0).epoch_count : Int) : ℚ) > ((c1wcfg.early_stop_patience : Int) : ℚ) ∧
        (initState 0).ema_two_checks_prior ≠ -1 ∧
        ((c1wcfg.early_stop_method = "accuracy" ∧
            (onCheck c1wcfg (initState 0) 1 0).1.last_ema ≤
              (initState 0).ema_two_checks_prior) ∨
          (c1wcfg.early_stop_method = "loss" ∧
            (initState 0).ema_two_checks_prior ≤
              (onCheck c1wcfg (initState 0) 1 0).1.last_ema)))) ∧
    ((onCheck c1wcfg (initState 0) 1 0).1.early_stop = true →
      (onCheck c1wcfg (initState 0) 1 0).1.last_ema ≠ -1 ∧
      (onCheck c1wcfg (initState 0) 1 0).1.moving_average.length = c1wcfg.ema_observations) ∧
    (runTraining c1wcfg (initState 0) [[(1, 0)]]).2.1.countP isTriggered ≤ 1 :=
  C1_early_stop_trigger c1wcfg (initState 0) 1 0 0 [[(1, 0)]]
    (by refine ⟨?_, Or.inl rfl, Or.inl rfl, Or.inl rfl, ?_, ?_, ?_, ?_⟩ <;> decide)
    rfl (by decide) rfl (by decide) (by norm_num [c1wcfg]) (by norm_num [c1wcfg])

/-- Concrete configuration for the C2 witness. -/
def c2wcfg : CBConfig where
  early_stop := true
  early_stop_method := "loss"
  early_stop_patience := 0
  model_type := "categorical"
  using_validation := true
  validate_on_batch := 1
  ema_observations := 1
  ema_smoothing := 0
  steps_per_epoch := 1
  finetune_epochs := [1]
  name := none
  outdir := "out"

/-- C2 witnessed at the initial state: the first check (window still filling)
appends the raw value without smoothing and keeps the EMA uninitialized, and
over a concrete run the SMA is seeded at most once. -/
theorem C2_ema_window_phases_witness :
    (onCheck c2wcfg (initState 0) 1 2).1.moving_average =
      (initState 0).moving_average ++ [2] ∧
    (onCheck c2wcfg (initState 0) 1 2).1.last_ema = (initState 0).last_ema ∧
    (onCheck c2wcfg (initState 0) 1 2).2.head? = some LogKind.base ∧
    (runTraining c2wcfg (initState 0) [[(1, 2)]]).2.1.countP isSMA ≤ 1 := by
  have h := C2_ema_window_phases c2wcfg (initState 0) 1 2 0 [[(1, 2)]] (by decide)
    (by intro ep hep p hp
        simp only [List.mem_singleton] at hep
        subst hep
        simp only [List.mem_singleton] at hp
        subst hp
        norm_num)
    (by norm_num [c2wcfg]) (by norm_num [c2wcfg])
  obtain ⟨h1, _, _, h4⟩ := h
  obtain ⟨ha, hb, hc⟩ := h1 (by decide)
  exact ⟨ha, hb, hc, h4⟩

theorem C10_accuracy_noncategorical_log_only_witness :
    (runTraining c10wcfg (initState 0) [[(1, 2)]]).1.early_stop = false ∧
    (runTraining c10wcfg (initState 0) [[(1, 2)]]).1.last_ema = -1 ∧
    ((runTraining c10wcfg (initState 0) [[(1, 2)]]).2.1.all isBase) = true :=
  C10_accuracy_noncategorical_log_only c10wcfg 0 [[(1, 2)]] (by decide) rfl

end Slideflow
